import Mathlib

/-!
Verification of the CodeFlow repository's control-flow-graph construction
(`src/parsers/python_parser.py`), its line-scan parsers
(`src/parsers/cpp_parser.py`, `src/parsers/typescript_parser.py`) and the
orchestrator / renderer (`src/app.py`) against the natural-language spec.

The Python `ast` module is external to the repository: a Python abstract
syntax tree is embedded as the inductive types `Expr` / `Stmt` below, which
mirror exactly the `ast` node shapes the parser inspects (`ast.If`,
`ast.For`, `ast.While`, `ast.Try`, `ast.Return`, `ast.Expr`, `ast.Assign`,
`ast.FunctionDef`, `ast.Call`, `ast.Name`, `ast.Attribute`).  `ast.unparse`
(stdlib rendering of an expression back to text) is modelled structurally
by `unparse`.  A crucial faithfulness point: in a real Python AST a call
used as a statement is an `ast.Expr` node wrapping an `ast.Call`; a bare
`ast.Call` never occurs in a statement position, so the
`isinstance(stmt, ast.Call)` branch of `process_statement`
(python_parser.py line 112) can never fire.  The `Stmt` type therefore has
an `exprStmt` constructor (mirroring `ast.Expr`) and no statement-position
call constructor, exactly as in the `ast` module.
-/

namespace CodeFlow

/-- One flow node, mirroring the dicts appended by `create_node`
(python_parser.py lines 304-321): keys `id`, `label`, `type`. -/
structure Node where
  id : String
  label : String
  type : String
deriving Repr, DecidableEq

/-- One flow edge, mirroring the dicts appended to `self.edges`:
keys `from`, `to` (here `fromId` / `toId`, since `from` is a Lean keyword)
and the optional keys `label` and `style` (absent key = `none`). -/
structure Edge where
  fromId : String
  toId : String
  label : Option String := none
  style : Option String := none
deriving Repr, DecidableEq

/-- The mutable builder state of `EnhancedPythonParser`
(`self.node_counter`, `self.nodes`, `self.edges`). -/
structure PState where
  node_counter : Nat
  nodes : List Node
  edges : List Edge
deriving Repr, DecidableEq

/-- Python expressions, restricted to the shapes the parser inspects.
`constant_` covers atomic expressions the parser never destructures
(numbers, strings, ...) carrying their `ast.unparse` text; `otherExpr`
covers compound expressions the parser never destructures, carrying their
rendered text and their child expressions (so that `ast.walk` still
descends into them). -/
inductive Expr where
  | name (id : String)
  | attribute (value : Expr) (attr : String)
  | call (func : Expr) (args : List Expr)
  | constant_ (text : String)
  | otherExpr (text : String) (subs : List Expr)

/-- Python statements, restricted to the shapes `process_statement`
dispatches on; `otherStmt` covers every other statement kind (`ast.Pass`,
`ast.Import`, ...), which fall into the final `else` branch.  A try
handler is modelled by its body (the parser reads nothing else from
`ast.ExceptHandler`). -/
inductive Stmt where
  | functionDef (name : String) (body : List Stmt)
  | ifStmt (test : Expr) (body : List Stmt) (orelse : List Stmt)
  | forStmt (target : Expr) (iter : Expr) (body : List Stmt)
  | whileStmt (test : Expr) (body : List Stmt)
  | tryStmt (body : List Stmt) (handlers : List (List Stmt))
  | returnStmt (value : Option Expr)
  | exprStmt (value : Expr)
  | assign (targets : List Expr) (value : Expr)
  | otherStmt

mutual
/-- Modelled from the spec: `ast.unparse` renders an expression back to
source text; the parser uses it on attribute owners, loop targets/iters,
conditions and return values.  Rendered structurally. -/
def unparse : Expr → String
  | .name id => id
  | .attribute v attr => unparse v ++ "." ++ attr
  | .call f args => unparse f ++ "(" ++ String.intercalate ", " (unparseList args) ++ ")"
  | .constant_ t => t
  | .otherExpr t _ => t
termination_by e => (sizeOf e, 1)

/-- `ast.unparse` applied elementwise to an argument list. -/
def unparseList : List Expr → List String
  | [] => []
  | e :: rest => unparse e :: unparseList rest
termination_by l => (sizeOf l, 0)
end

/-- `create_node` (python_parser.py lines 304-321): allocate
`node_<counter>`, append the node, and when a parent id is given append
the plain edge `parent -> node`.  (`if parent_id:` is Python truthiness;
parent ids are the nonempty strings `node_k`, so it is exactly the
`Option` test.) -/
def create_node (label : String) (node_type : String) (parent_id : Option String)
    (s : PState) : String × PState :=
  let node_id := "node_" ++ toString s.node_counter
  let s := { s with
    node_counter := s.node_counter + 1
    nodes := s.nodes ++ [{ id := node_id, label := label, type := node_type }] }
  match parent_id with
  | some p => (node_id, { s with edges := s.edges ++ [{ fromId := p, toId := node_id }] })
  | none => (node_id, s)

/-- `self.edges.append(e)`. -/
def addEdge (s : PState) (e : Edge) : PState :=
  { s with edges := s.edges ++ [e] }

/-- `get_condition_text` (lines 263-269): `ast.unparse` output truncated
to 50 characters plus an ellipsis (`hasattr(ast, 'unparse')` holds on the
supported interpreters). -/
def get_condition_text (test : Expr) : String :=
  let condition := unparse test
  if condition.length > 50 then (condition.take 50) ++ "..." else condition

/-- `process_return_statement` (lines 224-231). -/
def process_return_statement (value : Option Expr) (parent_id : String)
    (s : PState) : String × PState :=
  let return_text :=
    match value with
    | some v => "Return: " ++ unparse v
    | none => "Return"
  create_node return_text "end" (some parent_id) s

/-- The name resolution inside `process_function_call` (lines 235-240),
applied to the `func` field of the `ast.Call` node. -/
def call_func_name : Expr → String
  | .name id => id
  | .attribute v attr => unparse v ++ "." ++ attr
  | _ => "function"

/-- `process_function_call` (lines 233-242): the argument is the
`ast.Call` node's `func` field; the created node has type `"function"`. -/
def process_function_call (func : Expr) (parent_id : String) (s : PState) :
    String × PState :=
  create_node ("Call: " ++ call_func_name func ++ "()") "function" (some parent_id) s

/-- Substring containment, mirroring Python's `needle in haystack`. -/
def strContainsSub (haystack needle : String) : Bool :=
  (haystack.toList.tails).any (fun t => needle.toList.isPrefixOf t)

/-- Python `str.lower()` (ASCII case mapping; identifiers and extensions
in scope are ASCII). -/
def pyToLower (s : String) : String := String.mk (s.toList.map Char.toLower)

/-- `is_important_assignment` (lines 257-261). -/
def is_important_assignment (var_name : String) : Bool :=
  ["result", "output", "data", "config", "connection"].any
    (fun pattern => strContainsSub (pyToLower var_name) pattern)

/-- `process_assignment` (lines 244-255). -/
def process_assignment (targets : List Expr) (value : Expr) (parent_id : String)
    (s : PState) : String × PState :=
  match targets with
  | [.name var_name] =>
    match value with
    | .call f _ => process_function_call f parent_id s
    | _ =>
      if is_important_assignment var_name then
        create_node ("Set " ++ var_name) "process" (some parent_id) s
      else
        (parent_id, s)
  | _ => (parent_id, s)

mutual
/-- `process_statement` (lines 100-118).  The `isinstance(stmt, ast.Call)`
branch (line 112) is unrepresentable: statements are never bare `ast.Call`
nodes (a call statement is `ast.Expr`, which falls into the final `else`).
`ast.FunctionDef` and every unmodelled statement also fall into `else`. -/
def process_statement (stmt : Stmt) (parent_id : String) (s : PState) :
    String × PState :=
  match stmt with
  | .ifStmt test body orelse => process_if_statement test body orelse parent_id s
  | .forStmt target iter body => process_for_loop target iter body parent_id s
  | .whileStmt test body => process_while_loop test body parent_id s
  | .tryStmt body handlers => process_try_statement body handlers parent_id s
  | .returnStmt v => process_return_statement v parent_id s
  | .assign targets value => process_assignment targets value parent_id s
  | _ => (parent_id, s)
termination_by (sizeOf stmt, 1)

/-- The statement-sequence traversal `for child_stmt in ...:` threading
the cursor, shared by every body loop in the source. -/
def process_block (stmts : List Stmt) (current_id : String) (s : PState) :
    String × PState :=
  match stmts with
  | [] => (current_id, s)
  | stmt :: rest =>
    let r := process_statement stmt current_id s
    process_block rest r.1 r.2
termination_by (sizeOf stmts, 1)

/-- `process_if_statement` (lines 120-152). -/
def process_if_statement (test : Expr) (body : List Stmt) (orelse : List Stmt)
    (parent_id : String) (s : PState) : String × PState :=
  let r0 := create_node ("If: " ++ get_condition_text test) "condition" (some parent_id) s
  let if_id := r0.1
  let r1 := create_node "If True" "process" none r0.2
  let if_body_start := r1.1
  let s1 := addEdge r1.2 { fromId := if_id, toId := if_body_start, label := some "Yes" }
  let r2 := process_block body if_body_start s1
  let if_body_end := r2.1
  if orelse.isEmpty then
    let r5 := create_node "Continue" "process" none r2.2
    let merge_id := r5.1
    let s5 := addEdge r5.2 { fromId := if_body_end, toId := merge_id }
    (merge_id, addEdge s5 { fromId := if_id, toId := merge_id, label := some "No" })
  else
    let r3 := create_node "If False" "process" none r2.2
    let else_body_start := r3.1
    let s3 := addEdge r3.2 { fromId := if_id, toId := else_body_start, label := some "No" }
    let r4 := process_block orelse else_body_start s3
    let else_body_end := r4.1
    let r5 := create_node "Continue" "process" none r4.2
    let merge_id := r5.1
    let s5 := addEdge r5.2 { fromId := if_body_end, toId := merge_id }
    (merge_id, addEdge s5 { fromId := else_body_end, toId := merge_id })
termination_by (1 + sizeOf test + sizeOf body + sizeOf orelse, 0)

/-- `process_for_loop` (lines 154-175). -/
def process_for_loop (target : Expr) (iter : Expr) (body : List Stmt)
    (parent_id : String) (s : PState) : String × PState :=
  let r0 := create_node ("For " ++ unparse target ++ " in " ++ unparse iter)
    "condition" (some parent_id) s
  let loop_start := r0.1
  let r1 := create_node "Loop Body" "process" none r0.2
  let loop_body_start := r1.1
  let s1 := addEdge r1.2 { fromId := loop_start, toId := loop_body_start, label := some "Each Item" }
  let r2 := process_block body loop_body_start s1
  let loop_body_end := r2.1
  let s2 := addEdge r2.2 { fromId := loop_body_end, toId := loop_start, label := some "Next" }
  let r3 := create_node "Loop Complete" "process" none s2
  let loop_exit := r3.1
  (loop_exit, addEdge r3.2 { fromId := loop_start, toId := loop_exit, label := some "Done" })
termination_by (1 + sizeOf target + sizeOf iter + sizeOf body, 0)

/-- `process_while_loop` (lines 177-197). -/
def process_while_loop (test : Expr) (body : List Stmt) (parent_id : String)
    (s : PState) : String × PState :=
  let r0 := create_node ("While: " ++ get_condition_text test) "condition" (some parent_id) s
  let loop_start := r0.1
  let r1 := create_node "Loop Body" "process" none r0.2
  let loop_body_start := r1.1
  let s1 := addEdge r1.2 { fromId := loop_start, toId := loop_body_start, label := some "True" }
  let r2 := process_block body loop_body_start s1
  let loop_body_end := r2.1
  let s2 := addEdge r2.2 { fromId := loop_body_end, toId := loop_start }
  let r3 := create_node "Loop Exit" "process" none s2
  let loop_exit := r3.1
  (loop_exit, addEdge r3.2 { fromId := loop_start, toId := loop_exit, label := some "False" })
termination_by (1 + sizeOf test + sizeOf body, 0)

/-- `process_try_statement` (lines 199-222). -/
def process_try_statement (body : List Stmt) (handlers : List (List Stmt))
    (parent_id : String) (s : PState) : String × PState :=
  let r0 := create_node "Try Block" "process" (some parent_id) s
  let try_id := r0.1
  let r1 := process_block body try_id r0.2
  let try_body_end := r1.1
  if handlers.isEmpty then
    (try_body_end, r1.2)
  else
    let r2 := create_node "Exception Handler" "process" none r1.2
    let except_id := r2.1
    let s2 := addEdge r2.2 { fromId := try_id, toId := except_id, label := some "Error" }
    let r3 := process_handlers handlers except_id s2
    let except_body_end := r3.1
    let r4 := create_node "Continue" "process" none r3.2
    let merge_id := r4.1
    let s4 := addEdge r4.2 { fromId := try_body_end, toId := merge_id }
    (merge_id, addEdge s4 { fromId := except_body_end, toId := merge_id })
termination_by (1 + sizeOf body + sizeOf handlers, 0)

/-- The nested loop `for handler in stmt.handlers: for child_stmt in
handler.body:` threading `except_body_end` (lines 212-214). -/
def process_handlers (handlers : List (List Stmt)) (current_id : String)
    (s : PState) : String × PState :=
  match handlers with
  | [] => (current_id, s)
  | h :: rest =>
    let r := process_block h current_id s
    process_handlers rest r.1 r.2
termination_by (sizeOf handlers, 1)
end

/-! ### `ast.walk` and the two collection passes

`collect_functions` (lines 42-52) and `extract_function_calls`
(lines 54-63) iterate `ast.walk`, the stdlib breadth-first traversal:
a deque seeded with the root; repeatedly pop the front node, enqueue its
children (`ast.iter_child_nodes`, in field order), and yield the popped
node.  `ANode` is the sum of node sorts the traversal passes through
(statements, expressions, and `ast.ExceptHandler` nodes, the latter
modelled by their body). -/

inductive ANode where
  | stmt (s : Stmt)
  | expr (e : Expr)
  | handlerNode (body : List Stmt)

/-- `ast.iter_child_nodes`, restricted to the modelled fields, in the
`ast` field order.  Unmodelled fields (`FunctionDef.args`, decorators,
`For.orelse`, ...) hold no `Call` / `FunctionDef` nodes in the modelled
sublanguage. -/
def astChildren : ANode → List ANode
  | .stmt (.functionDef _ body) => body.map .stmt
  | .stmt (.ifStmt t b o) => .expr t :: (b.map .stmt ++ o.map .stmt)
  | .stmt (.forStmt tgt it b) => .expr tgt :: .expr it :: b.map .stmt
  | .stmt (.whileStmt t b) => .expr t :: b.map .stmt
  | .stmt (.tryStmt b hs) => b.map .stmt ++ hs.map .handlerNode
  | .stmt (.returnStmt (some e)) => [.expr e]
  | .stmt (.returnStmt none) => []
  | .stmt (.exprStmt v) => [.expr v]
  | .stmt (.assign tgts v) => tgts.map .expr ++ [.expr v]
  | .stmt .otherStmt => []
  | .expr (.name _) => []
  | .expr (.attribute v _) => [.expr v]
  | .expr (.call f args) => .expr f :: args.map .expr
  | .expr (.constant_ _) => []
  | .expr (.otherExpr _ subs) => subs.map .expr
  | .handlerNode b => b.map .stmt

mutual
/-- Computable structural weight of a statement (the automatically derived
`SizeOf` instance for these nested inductives has no executable code). -/
def wStmt : Stmt → Nat
  | .functionDef _ b => 1 + wStmtList b
  | .ifStmt t b o => 1 + wExpr t + wStmtList b + wStmtList o
  | .forStmt tg it b => 1 + wExpr tg + wExpr it + wStmtList b
  | .whileStmt t b => 1 + wExpr t + wStmtList b
  | .tryStmt b hs => 1 + wStmtList b + wHandlers hs
  | .returnStmt (some e) => 1 + wExpr e
  | .returnStmt none => 1
  | .exprStmt v => 1 + wExpr v
  | .assign tg v => 1 + wExprList tg + wExpr v
  | .otherStmt => 1
termination_by s => (sizeOf s, 0)

/-- Weight of a statement list. -/
def wStmtList : List Stmt → Nat
  | [] => 0
  | s :: r => wStmt s + wStmtList r
termination_by l => (sizeOf l, 1)

/-- Weight of a handler list. -/
def wHandlers : List (List Stmt) → Nat
  | [] => 0
  | h :: r => 1 + wStmtList h + wHandlers r
termination_by l => (sizeOf l, 2)

/-- Computable structural weight of an expression. -/
def wExpr : Expr → Nat
  | .name _ => 1
  | .attribute v _ => 1 + wExpr v
  | .call f a => 1 + wExpr f + wExprList a
  | .constant_ _ => 1
  | .otherExpr _ s => 1 + wExprList s
termination_by e => (sizeOf e, 0)

/-- Weight of an expression list. -/
def wExprList : List Expr → Nat
  | [] => 0
  | e :: r => wExpr e + wExprList r
termination_by l => (sizeOf l, 1)
end

/-- Termination weight of one traversal node. -/
def aweight : ANode → Nat
  | .stmt s => wStmt s
  | .expr e => wExpr e
  | .handlerNode b => 1 + wStmtList b

/-- Total weight of a traversal queue. -/
def qweight (q : List ANode) : Nat := (q.map aweight).sum

theorem qweight_stmt_map (l : List Stmt) : qweight (l.map ANode.stmt) = wStmtList l := by
  induction l with
  | nil => simp [qweight, wStmtList]
  | cons s r ih =>
    simp only [qweight, List.map_cons, List.sum_cons] at *
    rw [ih, wStmtList, aweight]

theorem qweight_expr_map (l : List Expr) : qweight (l.map ANode.expr) = wExprList l := by
  induction l with
  | nil => simp [qweight, wExprList]
  | cons s r ih =>
    simp only [qweight, List.map_cons, List.sum_cons] at *
    rw [ih, wExprList, aweight]

theorem qweight_handler_map (l : List (List Stmt)) :
    qweight (l.map ANode.handlerNode) = wHandlers l := by
  induction l with
  | nil => simp [qweight, wHandlers]
  | cons s r ih =>
    simp only [qweight, List.map_cons, List.sum_cons] at *
    rw [ih, wHandlers, aweight]
    try omega

theorem qweight_append (a b : List ANode) : qweight (a ++ b) = qweight a + qweight b := by
  simp [qweight]

theorem qweight_cons (n : ANode) (q : List ANode) :
    qweight (n :: q) = aweight n + qweight q := by
  simp [qweight]

theorem qweight_nil : qweight [] = 0 := by
  simp [qweight]

theorem astChildren_weight (n : ANode) : qweight (astChildren n) < aweight n := by
  rcases n with s | e | b
  · rcases s with ⟨nm, b⟩ | ⟨t, b, o⟩ | ⟨tg, it, b⟩ | ⟨t, b⟩ | ⟨b, hs⟩ | v | v | ⟨tg, v⟩ | _ <;>
      try rcases v with _ | v
    all_goals
      simp only [astChildren, qweight_cons, qweight_append, qweight_nil,
        qweight_stmt_map, qweight_expr_map, qweight_handler_map, aweight]
    all_goals simp only [wStmt]
    all_goals omega
  · rcases e with _ | ⟨v, a⟩ | ⟨f, args⟩ | _ | ⟨t, subs⟩
    all_goals
      simp only [astChildren, qweight_cons, qweight_append, qweight_nil,
        qweight_stmt_map, qweight_expr_map, qweight_handler_map, aweight]
    all_goals simp only [wExpr]
    all_goals omega
  · simp only [astChildren, qweight_stmt_map, aweight]
    omega

/-- `ast.walk` (stdlib): breadth-first traversal of the queue. -/
def walk (q : List ANode) : List ANode :=
  match q with
  | [] => []
  | n :: rest => n :: walk (rest ++ astChildren n)
termination_by qweight q
decreasing_by
  have h := astChildren_weight n
  rw [qweight_append, qweight_cons]
  omega

/-- One entry of the `functions` list built by `collect_functions`:
the dict `{'name': ..., 'node': ..., 'calls': ...}` (the `node` field is
kept as the function's body, the only part later read). -/
structure PyFunc where
  name : String
  body : List Stmt
  calls : List String

/-- `extract_function_calls` (lines 54-63): every `ast.Call` reachable by
`ast.walk` from the function definition; direct calls contribute the bare
identifier, attribute calls `unparse(owner) ++ "." ++ attr`; calls whose
`func` is any other expression are skipped. -/
def extract_function_calls (func_node : Stmt) : List String :=
  (walk [.stmt func_node]).filterMap fun n =>
    match n with
    | .expr (.call (.name id) _) => some id
    | .expr (.call (.attribute v attr) _) => some (unparse v ++ "." ++ attr)
    | _ => none

/-- `collect_functions` (lines 42-52): every `ast.FunctionDef` yielded by
`ast.walk` over the module, in traversal order.  (`ast.walk(tree)` yields
the `Module` node itself first; it is not a `FunctionDef`, so starting
from the top-level statement forest is equivalent.) -/
def collect_functions (tree : List Stmt) : List PyFunc :=
  (walk (tree.map .stmt)).filterMap fun n =>
    match n with
    | .stmt (.functionDef name body) =>
      some { name := name, body := body,
             calls := extract_function_calls (.functionDef name body) }
    | _ => none

/-- `is_main_function_call` (lines 282-288): is there a module-level
expression statement that is a direct call of `func_name`? -/
def is_main_function_call (tree : List Stmt) (func_name : String) : Bool :=
  tree.any fun stmt =>
    match stmt with
    | .exprStmt (.call (.name id) _) => id = func_name
    | _ => false

/-- `create_function_body_flow` (lines 91-98). -/
def create_function_body_flow (body : List Stmt) (func_start_id : String)
    (s : PState) : String × PState :=
  process_block body func_start_id s

/-- Lookup in the `function_nodes` dict; bindings are appended in
insertion order and, as in a Python dict, a later binding for the same
key overwrites an earlier one, so the last binding wins. -/
def dLookup (d : List (String × String)) (k : String) : Option String :=
  match d with
  | [] => none
  | (k', v) :: rest =>
    match dLookup rest k with
    | some r => some r
    | none => if k' = k then some v else none

/-- `add_function_call_edges` (lines 290-302): for every collected
function present in `function_nodes`, and every name in its `calls` list
that names a function in `function_nodes`, append one dotted edge
labelled `"calls"`.  No deduplication and no built-in filtering happen
here. -/
def add_function_call_edges (functions : List PyFunc)
    (function_nodes : List (String × String)) (s : PState) : PState :=
  functions.foldl
    (fun s func =>
      match dLookup function_nodes func.name with
      | none => s
      | some from_id =>
        func.calls.foldl
          (fun s call =>
            match dLookup function_nodes call with
            | none => s
            | some to_id =>
              addEdge s { fromId := from_id, toId := to_id,
                          label := some "calls", style := some "dotted" })
          s)
    s

/-- The `for func in functions:` loop of `create_function_flows`
(lines 72-83), threading the `function_nodes` dict, `last_main_id` and
the builder state. -/
def funcs_loop (tree : List Stmt) (funcs : List PyFunc)
    (function_nodes : List (String × String)) (last_main_id : String)
    (s : PState) : List (String × String) × String × PState :=
  match funcs with
  | [] => (function_nodes, last_main_id, s)
  | func :: rest =>
    let r0 := create_node ("Function: " ++ func.name) "function" none s
    let func_id := r0.1
    let function_nodes := function_nodes ++ [(func.name, func_id)]
    let r1 := create_function_body_flow func.body func_id r0.2
    let last_func_id := r1.1
    if is_main_function_call tree func.name then
      funcs_loop tree rest function_nodes last_func_id
        (addEdge r1.2 { fromId := last_main_id, toId := func_id })
    else
      funcs_loop tree rest function_nodes last_main_id r1.2

/-- `create_function_flows` (lines 65-89). -/
def create_function_flows (tree : List Stmt) (functions : List PyFunc)
    (s : PState) : PState :=
  let r0 := create_node "Program Start" "start" none s
  let main_id := r0.1
  let r1 := funcs_loop tree functions [] main_id r0.2
  let function_nodes := r1.1
  let last_main_id := r1.2.1
  let r2 := create_node "Program End" "end" (some last_main_id) r1.2.2
  add_function_call_edges functions function_nodes r2.2

/-- The `for stmt in tree.body:` loop of `create_main_flow`
(lines 276-278), skipping function definitions. -/
def main_flow_loop (stmts : List Stmt) (current_id : String) (s : PState) :
    String × PState :=
  match stmts with
  | [] => (current_id, s)
  | stmt :: rest =>
    match stmt with
    | .functionDef _ _ => main_flow_loop rest current_id s
    | _ =>
      let r := process_statement stmt current_id s
      main_flow_loop rest r.1 r.2

/-- `create_main_flow` (lines 271-280). -/
def create_main_flow (tree : List Stmt) (s : PState) : PState :=
  let r0 := create_node "Script Start" "start" none s
  let r1 := main_flow_loop tree r0.1 r0.2
  (create_node "Script End" "end" (some r1.1) r1.2).2

/-- The value returned by a successful `parse` (lines 33-38).  The
`functions` key is present in the Python parser's result dict and absent
from the C++/TypeScript parsers' dicts, hence an `Option`. -/
structure FlowData where
  nodes : List Node
  edges : List Edge
  file_path : String
  functions : Option (List String) := none
deriving Repr, DecidableEq

/-- The graph-construction core of `parse` (lines 20-38), after
`ast.parse` has succeeded: collect functions, then build either per-
function flows or the main flow from a fresh builder state. -/
def parse_flow (tree : List Stmt) (file_path : String) : FlowData :=
  let s : PState := { node_counter := 0, nodes := [], edges := [] }
  let functions := collect_functions tree
  let s :=
    if functions.isEmpty then create_main_flow tree s
    else create_function_flows tree functions s
  { nodes := s.nodes, edges := s.edges, file_path := file_path,
    functions := some (functions.map (·.name)) }

/-- The outcome of `ast.parse` on a source text: a module (top-level
statement list) or a `SyntaxError` carrying its `str(e)` rendering.
`ast.parse` is Python-stdlib, external to the repository, so a source
text is modelled together with its parse outcome. -/
inductive PyParseOutcome where
  | parsed (tree : List Stmt)
  | syntaxError (msg : String)

/-- A raw source text together with its modelled `ast.parse` outcome. -/
structure SourceText where
  text : String
  pyOutcome : PyParseOutcome

/-- The full mutable instance state of `EnhancedPythonParser`
(`__init__`, lines 5-10). -/
structure ParserInst where
  node_counter : Nat
  nodes : List Node
  edges : List Edge
  current_function : Option String
  function_calls : List String

/-- `EnhancedPythonParser.parse` (lines 12-40) as the method on a parser
instance: reset every mutable field (lines 14-18), run `ast.parse`
(raising `Exception("Python syntax error: ...")` on a `SyntaxError`,
lines 39-40, modelled as `Except.error`), build the flow and return it
together with the instance state left behind. -/
def python_parse_method (_inst : ParserInst) (src : SourceText)
    (file_path : String) : Except String FlowData × ParserInst :=
  match src.pyOutcome with
  | .syntaxError e =>
    (.error ("Python syntax error: " ++ e),
     { node_counter := 0, nodes := [], edges := [],
       current_function := none, function_calls := [] })
  | .parsed tree =>
    let functions := collect_functions tree
    let s0 : PState := { node_counter := 0, nodes := [], edges := [] }
    let s :=
      if functions.isEmpty then create_main_flow tree s0
      else create_function_flows tree functions s0
    (.ok { nodes := s.nodes, edges := s.edges, file_path := file_path,
           functions := some (functions.map (·.name)) },
     { node_counter := s.node_counter, nodes := s.nodes, edges := s.edges,
       current_function := none, function_calls := [] })

/-! ### `src/app.py`: renderer and orchestrator (`CodeFlowApp`) -/

/-- Python whitespace as used by `str.strip` / the regex class `\s`
(ASCII range; the repository's inputs are source code). -/
def pyWhitespace (c : Char) : Bool :=
  c = ' ' || c = '\t' || c = '\n' || c = '\r' || c = '\x0B' || c = '\x0C'

/-- Python `str.strip()`: drop leading and trailing whitespace. -/
def pyStrip (s : String) : String :=
  String.mk (((s.toList.dropWhile pyWhitespace).reverse.dropWhile pyWhitespace).reverse)

/-- Python `str.replace(pat, rep)` on char lists (all occurrences,
left to right; the repository only calls it with nonempty patterns). -/
def replaceAux (pat rep : List Char) (l : List Char) : List Char :=
  match l with
  | [] => []
  | c :: rest =>
    if pat ≠ [] ∧ pat.isPrefixOf (c :: rest) then
      rep ++ replaceAux pat rep (rest.drop (pat.length - 1))
    else
      c :: replaceAux pat rep rest
termination_by l.length
decreasing_by
  · have := List.length_drop (pat.length - 1) rest
    simp_all
    omega
  · simp

/-- Python `str.replace`. -/
def strReplace (s pat rep : String) : String :=
  String.mk (replaceAux pat.toList rep.toList s.toList)

/-- `clean_label` (app.py lines 309-315): replace double quotes with
single quotes and newlines with spaces, strip surrounding whitespace,
then truncate the cleaned text to 27 characters plus `"..."` when it is
longer than 30 characters. -/
def clean_label (label : String) : String :=
  let cleaned := pyStrip (String.mk (label.toList.map fun c =>
    if c = '"' then '\'' else if c = '\n' then ' ' else c))
  if cleaned.length > 30 then (cleaned.take 27) ++ "..." else cleaned

/-- `make_safe_id` (app.py lines 298-307).  (`isalnum` / `isalpha` read
as their ASCII meaning here; ids and function names in scope are ASCII.) -/
def make_safe_id (node_id : String) : String :=
  let s1 := node_id.toList.map fun c =>
    if c = '-' || c = ' ' || c = ':' || c = '.' then '_' else c
  let s2 := s1.filter fun c => c.isAlphanum || c = '_'
  match s2 with
  | [] => "n"
  | c :: _ => if c.isAlpha then String.mk s2 else String.mk ('n' :: s2)

/-- `is_builtin_function` (app.py lines 179-184): substring match of any
denylist entry inside the candidate name. -/
def is_builtin_function (func_name : String) : Bool :=
  ["print", "len", "str", "int", "float", "list", "dict", "set",
   "range", "enumerate", "zip", "open", "close", "get", "append",
   "Toplevel", "Label", "Entry", "Button", "Frame", "Canvas"].any
    fun builtin => strContainsSub func_name builtin

/-- `is_node_in_function` (app.py lines 160-164): the stub that always
returns `True` ("assume all nodes could be in any function"). -/
def is_node_in_function (_node : Node) (_func_name : String)
    (_flow_data : FlowData) : Bool :=
  true

/-- First-occurrence deduplication with an accumulator of already seen
elements. -/
def pySetDedupAux (seen : List String) : List String → List String
  | [] => []
  | x :: rest =>
    if x ∈ seen then pySetDedupAux seen rest
    else x :: pySetDedupAux (x :: seen) rest

/-- Modelled from the spec: `list(set(calls))` iterates a Python `set`,
whose order is hash-seed dependent; it is modelled as first-occurrence
deduplication.  No verified claim depends on the order. -/
def pySetDedup (l : List String) : List String := pySetDedupAux [] l

/-- `extract_function_calls_for_function` (app.py lines 166-177). -/
def extract_function_calls_for_function (_func_name : String)
    (flow_data : FlowData) : List String :=
  pySetDedup (flow_data.nodes.foldl
    (fun calls node =>
      if node.type = "function" ∧ strContainsSub node.label "Call:" then
        let call_name := pyStrip (strReplace (strReplace node.label "Call: " "") "()" "")
        if is_builtin_function call_name then calls else calls ++ [call_name]
      else calls)
    [])

/-- One entry of the list built by `extract_function_info`
(app.py lines 150-156). -/
structure FuncInfo where
  name : String
  safe_name : String
  has_conditions : Bool
  node_id : String
  calls : List String
deriving Repr, DecidableEq

/-- `extract_function_info` (app.py lines 129-158). -/
def extract_function_info (flow_data : FlowData) : List FuncInfo :=
  flow_data.nodes.foldl
    (fun functions node =>
      if node.type = "function" ∧ strContainsSub node.label "Function:" then
        let func_name := pyStrip (strReplace node.label "Function: " "")
        if functions.any (·.name = func_name) then functions
        else
          let has_conditions := flow_data.nodes.any fun n =>
            is_node_in_function n func_name flow_data && n.type == "condition"
          functions ++ [{ name := func_name, safe_name := make_safe_id func_name,
                          has_conditions := has_conditions, node_id := node.id,
                          calls := extract_function_calls_for_function func_name flow_data }]
      else functions)
    []

/-- The per-function chunk emitted by the `for func in functions:` loop of
`generate_function_flow_mermaid` (app.py lines 83-99): the function node
and its `class` line, plus - exactly when `func.has_conditions` - the
synthetic `<safe name>_LOGIC` decision node and `<safe name>_RETURN`
node with their wiring. -/
def function_block (func : FuncInfo) : String :=
  let safe_name := make_safe_id func.name
  let base := "    " ++ safe_name ++ "[" ++ func.name ++ "]\n"
    ++ "    class " ++ safe_name ++ " func\n"
  if func.has_conditions then
    let decision_id := safe_name ++ "_LOGIC"
    let return_id := safe_name ++ "_RETURN"
    base
      ++ "    " ++ decision_id ++ "\x7b" ++ func.name ++ " Decision Logic\x7d\n"
      ++ "    class " ++ decision_id ++ " decision\n"
      ++ "    " ++ safe_name ++ " --> " ++ decision_id ++ "\n"
      ++ "    " ++ return_id ++ "[Return from " ++ func.name ++ "]\n"
      ++ "    class " ++ return_id ++ " important\n"
      ++ "    " ++ decision_id ++ " --> " ++ return_id ++ "\n"
  else
    base

/-- `is_meaningful_node` (app.py lines 229-244). -/
def is_meaningful_node (node : Node) : Bool :=
  let label := pyToLower node.label
  if ["import", "assign", "expr", "continue", "merge"].any
      (fun pattern => strContainsSub label pattern) then
    false
  else if node.type = "condition" || node.type = "function" then
    true
  else
    ["try block", "exception", "return", "call:", "if:", "for:", "while:"].any
      fun pattern => strContainsSub label pattern

/-- The step loop of `generate_simple_sequential_flow`
(app.py lines 208-221), returning the emitted text and the final
`prev_node`. -/
def seq_steps (nodes : List Node) (step_count : Nat) (prev_node : String) :
    String × String :=
  match nodes with
  | [] => ("", prev_node)
  | node :: rest =>
    let step_id := "STEP" ++ toString step_count
    let label := clean_label node.label
    let chunk :=
      if node.type = "condition" then
        "    " ++ step_id ++ "\x7b" ++ label ++ "\x7d\n"
          ++ "    class " ++ step_id ++ " condition\n"
      else
        "    " ++ step_id ++ "[" ++ label ++ "]\n"
          ++ "    class " ++ step_id ++ " process\n"
    let chunk := chunk ++ "    " ++ prev_node ++ " --> " ++ step_id ++ "\n"
    let r := seq_steps rest (step_count + 1) step_id
    (chunk ++ r.1, r.2)

/-- `generate_simple_sequential_flow` (app.py lines 186-227). -/
def generate_simple_sequential_flow (flow_data : FlowData) : String :=
  let meaningful_nodes := flow_data.nodes.filter is_meaningful_node
  let r := seq_steps (meaningful_nodes.take 5) 1 "START"
  "flowchart TD\n"
    ++ "\n    classDef start fill:#e1f5fe,stroke:#01579b,stroke-width:3px\n    classDef process fill:#f3e5f5,stroke:#4a148c,stroke-width:2px\n    classDef condition fill:#fff3e0,stroke:#e65100,stroke-width:2px\n    classDef end fill:#ffebee,stroke:#c62828,stroke-width:3px\n\n"
    ++ "    START([Script Start])\n"
    ++ "    class START start\n"
    ++ r.1
    ++ "    END([Script End])\n"
    ++ "    class END end\n"
    ++ "    " ++ r.2 ++ " --> END\n"

/-- The call-relationship block of `generate_function_flow_mermaid`
(app.py lines 101-110). -/
def call_relationship_block (functions : List FuncInfo) : String :=
  match functions.head? with
  | none => ""
  | some first =>
    "    MAIN --> " ++ first.safe_name ++ "\n"
      ++ functions.foldl
        (fun acc func =>
          acc ++ func.calls.foldl
            (fun acc2 called_func =>
              let called_safe_name := make_safe_id called_func
              if functions.any (·.safe_name = called_safe_name) then
                acc2 ++ "    " ++ func.safe_name ++ " -.->|calls| "
                  ++ called_safe_name ++ "\n"
              else acc2)
            "")
        ""

/-- The final END wiring of `generate_function_flow_mermaid`
(app.py lines 112-125). -/
def end_block (functions : List FuncInfo) : String :=
  "    END([Program End])\n"
    ++ "    class END main\n"
    ++ match functions.getLast? with
       | some last_func =>
         if last_func.has_conditions then
           "    " ++ last_func.safe_name ++ "_RETURN --> END\n"
         else
           "    " ++ last_func.safe_name ++ " --> END\n"
       | none => "    MAIN --> END\n"

/-- `generate_function_flow_mermaid` (app.py lines 59-127). -/
def generate_function_flow_mermaid (flow_data : FlowData) : String :=
  let functions := extract_function_info flow_data
  if functions.isEmpty then
    generate_simple_sequential_flow flow_data
  else
    "flowchart TD\n"
      ++ "\n    classDef main fill:#e1f5fe,stroke:#01579b,stroke-width:3px\n    classDef func fill:#e8f5e8,stroke:#1b5e20,stroke-width:2px\n    classDef decision fill:#fff3e0,stroke:#e65100,stroke-width:2px\n    classDef important fill:#ffebee,stroke:#c62828,stroke-width:2px\n\n"
      ++ "    MAIN([Main Program])\n"
      ++ "    class MAIN main\n"
      ++ functions.foldl (fun acc func => acc ++ function_block func) ""
      ++ call_relationship_block functions
      ++ end_block functions

/-- The node-declaration lines of `generate_detailed_mermaid`
(app.py lines 259-276). -/
def detailed_node_lines (nodes : List Node) : String :=
  nodes.foldl
    (fun acc node =>
      let node_id := make_safe_id node.id
      let label := clean_label node.label
      let node_type := node.type
      acc ++
        if node_type = "start" || node_type = "end" then
          "    " ++ node_id ++ "([" ++ label ++ "])\n"
            ++ "    class " ++ node_id ++ " startEnd\n"
        else if node_type = "condition" then
          "    " ++ node_id ++ "\x7b" ++ label ++ "\x7d\n"
            ++ "    class " ++ node_id ++ " condition\n"
        else if node_type = "function" then
          "    " ++ node_id ++ "[" ++ label ++ "]\n"
            ++ "    class " ++ node_id ++ " function\n"
        else
          "    " ++ node_id ++ "[" ++ label ++ "]\n"
            ++ "    class " ++ node_id ++ " process\n")
    ""

/-- The edge lines of `generate_detailed_mermaid` (app.py lines 278-294).
`edge.get('label', '')` / `edge.get('style', 'solid')` with Python
truthiness on the label. -/
def detailed_edge_lines (edges : List Edge) : String :=
  edges.foldl
    (fun acc edge =>
      let from_node := make_safe_id edge.fromId
      let to_node := make_safe_id edge.toId
      let label := edge.label.getD ""
      let style := edge.style.getD "solid"
      acc ++
        if style = "dotted" then
          if label ≠ "" then
            "    " ++ from_node ++ " -.->|" ++ label ++ "| " ++ to_node ++ "\n"
          else
            "    " ++ from_node ++ " -.-> " ++ to_node ++ "\n"
        else
          if label ≠ "" then
            "    " ++ from_node ++ " -->|" ++ label ++ "| " ++ to_node ++ "\n"
          else
            "    " ++ from_node ++ " --> " ++ to_node ++ "\n")
    ""

/-- `generate_detailed_mermaid` (app.py lines 246-296). -/
def generate_detailed_mermaid (flow_data : FlowData) : String :=
  "flowchart TD\n"
    ++ "\n    classDef startEnd fill:#e1f5fe,stroke:#01579b,stroke-width:3px,color:#000\n    classDef process fill:#f3e5f5,stroke:#4a148c,stroke-width:2px,color:#000\n    classDef condition fill:#fff3e0,stroke:#e65100,stroke-width:2px,color:#000\n    classDef function fill:#e8f5e8,stroke:#1b5e20,stroke-width:2px,color:#000\n\n"
    ++ detailed_node_lines flow_data.nodes
    ++ detailed_edge_lines flow_data.edges

/-! ### `src/parsers/cpp_parser.py` and `src/parsers/typescript_parser.py`

Line-scan parsers driven by a handful of regexes.  The regexes are
implemented as deterministic character-list matchers; this is faithful
because in each pattern adjacent pieces draw from disjoint character
classes (`\w`, `\s`, literal punctuation), so greedy matching never
backtracks.  `\w` is read as ASCII `[A-Za-z0-9_]` and `\s` as ASCII
whitespace (source code inputs). -/

/-- Python `str.split(sep)` with a one-character separator
(`''.split(sep) == ['']`, separators at the ends produce empty pieces). -/
def splitOnChar (sep : Char) : List Char → List (List Char)
  | [] => [[]]
  | c :: rest =>
    let r := splitOnChar sep rest
    if c = sep then [] :: r
    else
      match r with
      | [] => [[c]]
      | h :: t => (c :: h) :: t

/-- `code_content.split('\n')` as strings. -/
def splitLines (s : String) : List String :=
  (splitOnChar '\n' s.toList).map String.mk

/-- Python `str.startswith`. -/
def pyStartsWith (s pre : String) : Bool := pre.toList.isPrefixOf s.toList

/-- Python `str.endswith`. -/
def pyEndsWith (s suf : String) : Bool := suf.toList.reverse.isPrefixOf s.toList.reverse

/-- The regex class `\w`. -/
def isWordChar (c : Char) : Bool := c.isAlphanum || c = '_'

/-- Match of `(\w+)\s*\([^)]*\)` anchored at the start of `l`,
returning group 1. -/
def name_paren_at (l : List Char) : Option (List Char) :=
  let p1 := l.span isWordChar
  if p1.1.isEmpty then none
  else
    match (p1.2.span pyWhitespace).2 with
    | '(' :: r3 =>
      match (r3.span (fun c => c ≠ ')')).2 with
      | ')' :: _ => some p1.1
      | _ => none
    | _ => none

/-- `re.search(r'(\w+)\s*\([^)]*\)', line)`: earliest matching position,
returning group 1. -/
def search_name_paren : List Char → Option (List Char)
  | [] => none
  | c :: rest =>
    match name_paren_at (c :: rest) with
    | some g => some g
    | none => search_name_paren rest

/-- Match of `kw\s*\(([^)]+)\)` anchored at the start of `l`,
returning the parenthesised group. -/
def kw_paren_at (kw : List Char) (l : List Char) : Option (List Char) :=
  if kw.isPrefixOf l then
    match ((l.drop kw.length).span pyWhitespace).2 with
    | '(' :: r2 =>
      let p := r2.span (fun c => c ≠ ')')
      if p.1.isEmpty then none
      else
        match p.2 with
        | ')' :: _ => some p.1
        | _ => none
    | _ => none
  else none

/-- `re.search(r'kw\s*\(([^)]+)\)', line)`. -/
def search_kw_paren (kw : List Char) : List Char → Option (List Char)
  | [] => none
  | c :: rest =>
    match kw_paren_at kw (c :: rest) with
    | some g => some g
    | none => search_kw_paren kw rest

/-- Match of `\w+\s+\w+\s*\([^)]*\)\s*{` anchored at the start of `l`
(`re.match` in the C++ function-definition branch). -/
def cpp_func_def_match (l : List Char) : Bool :=
  let p1 := l.span isWordChar
  if p1.1.isEmpty then false
  else
    let p2 := p1.2.span pyWhitespace
    if p2.1.isEmpty then false
    else
      let p3 := p2.2.span isWordChar
      if p3.1.isEmpty then false
      else
        match (p3.2.span pyWhitespace).2 with
        | '(' :: r5 =>
          match (r5.span (fun c => c ≠ ')')).2 with
          | ')' :: r7 =>
            match (r7.span pyWhitespace).2 with
            | '{' :: _ => true
            | _ => false
          | _ => false
        | _ => false

/-- Match of `\w+\s*\([^)]*\)\s*;` anchored at the start of `l`. -/
def call_semi_at (l : List Char) : Bool :=
  let p1 := l.span isWordChar
  if p1.1.isEmpty then false
  else
    match (p1.2.span pyWhitespace).2 with
    | '(' :: r3 =>
      match (r3.span (fun c => c ≠ ')')).2 with
      | ')' :: r4 =>
        match (r4.span pyWhitespace).2 with
        | ';' :: _ => true
        | _ => false
      | _ => false
    | _ => false

/-- `re.search(r'\w+\s*\([^)]*\)\s*;', line)` as a Boolean. -/
def search_call_semi : List Char → Bool
  | [] => false
  | c :: rest => call_semi_at (c :: rest) || search_call_semi rest

/-- One iteration of the `while i < len(lines):` loop of
`CppParser.parse_lines` (cpp_parser.py lines 47-96). -/
def cpp_line_step (current_id : String) (s : PState) (rawLine : String) :
    String × PState :=
  let line := pyStrip rawLine
  if (line = "") || pyStartsWith line "//" || pyStartsWith line "/*" then
    (current_id, s)
  else
    let l := line.toList
    if cpp_func_def_match l then
      match search_name_paren l with
      | some fname =>
        create_node ("Function: " ++ String.mk fname) "function" (some current_id) s
      | none => (current_id, s)
    else if pyStartsWith line "if" then
      let condition_text :=
        match search_kw_paren "if".toList l with
        | some g => String.mk g
        | none => "condition"
      create_node ("If: " ++ condition_text) "condition" (some current_id) s
    else if pyStartsWith line "for" then
      let loop_text :=
        match search_kw_paren "for".toList l with
        | some g => String.mk g
        | none => "loop"
      create_node ("For: " ++ loop_text) "condition" (some current_id) s
    else if pyStartsWith line "while" then
      let condition_text :=
        match search_kw_paren "while".toList l with
        | some g => String.mk g
        | none => "condition"
      create_node ("While: " ++ condition_text) "condition" (some current_id) s
    else if search_call_semi l then
      match search_name_paren l with
      | some fname =>
        create_node ("Call: " ++ String.mk fname ++ "()") "function" (some current_id) s
      | none => (current_id, s)
    else if pyStartsWith line "return" then
      create_node "Return" "process" (some current_id) s
    else
      (current_id, s)

/-- `CppParser.parse_lines` (lines 47-98). -/
def cpp_parse_lines (lines : List String) (s : PState) : PState :=
  let r0 := create_node "Start" "start" none s
  let r1 := lines.foldl (fun (acc : String × PState) line =>
    cpp_line_step acc.1 acc.2 line) r0
  (create_node "End" "end" (some r1.1) r1.2).2

/-- The builder state produced by `CppParser.parse` from a fresh reset. -/
def cpp_parse_state (code_content : String) : PState :=
  cpp_parse_lines (splitLines code_content)
    { node_counter := 0, nodes := [], edges := [] }

/-- `CppParser.parse` (cpp_parser.py lines 10-26): reset state, scan the
lines, return `{nodes, edges, file_path}` (no `functions` key). -/
def cpp_parse (code_content : String) (file_path : String) : FlowData :=
  let s := cpp_parse_state code_content
  { nodes := s.nodes, edges := s.edges, file_path := file_path }

/-- The mutable instance state of `CppParser` / `TypeScriptParser`
(`__init__`). -/
structure LineParserInst where
  node_counter : Nat
  nodes : List Node
  edges : List Edge

/-- `CppParser.parse` as the method on a parser instance: every mutable
field is reset at entry (lines 12-14), so the incoming state is unused. -/
def cpp_parse_method (_inst : LineParserInst) (src : SourceText)
    (file_path : String) : FlowData × LineParserInst :=
  let s := cpp_parse_state src.text
  ({ nodes := s.nodes, edges := s.edges, file_path := file_path },
   { node_counter := s.node_counter, nodes := s.nodes, edges := s.edges })

/-- Match of `function\s+(\w+)` anchored at the start, returning the
group. -/
def ts_fn_kw_at (l : List Char) : Option (List Char) :=
  if "function".toList.isPrefixOf l then
    let p := (l.drop 8).span pyWhitespace
    if p.1.isEmpty then none
    else
      let w := p.2.span isWordChar
      if w.1.isEmpty then none else some w.1
  else none

/-- Match of `const\s+(\w+)` anchored at the start, returning the
group. -/
def ts_const_at (l : List Char) : Option (List Char) :=
  if "const".toList.isPrefixOf l then
    let p := (l.drop 5).span pyWhitespace
    if p.1.isEmpty then none
    else
      let w := p.2.span isWordChar
      if w.1.isEmpty then none else some w.1
  else none

/-- Match of `(\w+)\s*\(` anchored at the start, returning the group. -/
def ts_word_paren_at (l : List Char) : Option (List Char) :=
  let p1 := l.span isWordChar
  if p1.1.isEmpty then none
  else
    match (p1.2.span pyWhitespace).2 with
    | '(' :: _ => some p1.1
    | _ => none

/-- Match of `const\s+\w+\s*=\s*\([^)]*\)\s*=>` anchored at the start. -/
def ts_arrow_at (l : List Char) : Bool :=
  if "const".toList.isPrefixOf l then
    let p := (l.drop 5).span pyWhitespace
    if p.1.isEmpty then false
    else
      let w := p.2.span isWordChar
      if w.1.isEmpty then false
      else
        match (w.2.span pyWhitespace).2 with
        | '=' :: r1 =>
          match (r1.span pyWhitespace).2 with
          | '(' :: r2 =>
            match (r2.span (fun c => c ≠ ')')).2 with
            | ')' :: r3 =>
              match (r3.span pyWhitespace).2 with
              | '=' :: '>' :: _ => true
              | _ => false
            | _ => false
          | _ => false
        | _ => false
  else false

/-- Match of `\w+\s*\([^)]*\)\s*{` anchored at the start. -/
def ts_call_brace_at (l : List Char) : Bool :=
  let p1 := l.span isWordChar
  if p1.1.isEmpty then false
  else
    match (p1.2.span pyWhitespace).2 with
    | '(' :: r3 =>
      match (r3.span (fun c => c ≠ ')')).2 with
      | ')' :: r4 =>
        match (r4.span pyWhitespace).2 with
        | '{' :: _ => true
        | _ => false
      | _ => false
    | _ => false

/-- Match of `function\s+\w+` anchored at the start. -/
def ts_fn_decl_at (l : List Char) : Bool :=
  (ts_fn_kw_at l).isSome

/-- `re.match(r'(function\s+\w+|const\s+\w+\s*=\s*\([^)]*\)\s*=>|\w+\s*\([^)]*\)\s*{)', line)`
as a Boolean (typescript_parser.py line 58). -/
def ts_func_def_match (l : List Char) : Bool :=
  ts_fn_decl_at l || ts_arrow_at l || ts_call_brace_at l

/-- The alternation `(function\s+(\w+)|const\s+(\w+)|(\w+)\s*\()` tried
at one position, alternatives in pattern order; the result is
`group(2) or group(3) or group(4)` (the matched alternative's word,
always nonempty). -/
def ts_name_at (l : List Char) : Option (List Char) :=
  match ts_fn_kw_at l with
  | some g => some g
  | none =>
    match ts_const_at l with
    | some g => some g
    | none => ts_word_paren_at l

/-- `re.search(r'(function\s+(\w+)|const\s+(\w+)|(\w+)\s*\()', line)`
(typescript_parser.py line 59): earliest position, alternatives in
order. -/
def ts_search_name : List Char → Option (List Char)
  | [] => none
  | c :: rest =>
    match ts_name_at (c :: rest) with
    | some g => some g
    | none => ts_search_name rest

/-- One iteration of `TypeScriptParser.parse_lines`
(typescript_parser.py lines 44-93). -/
def ts_line_step (current_id : String) (s : PState) (rawLine : String) :
    String × PState :=
  let line := pyStrip rawLine
  if (line = "") || pyStartsWith line "//" || pyStartsWith line "/*" then
    (current_id, s)
  else
    let l := line.toList
    if ts_func_def_match l then
      match ts_search_name l with
      | some fname =>
        -- `func_match.group(2) or group(3) or group(4) or "anonymous"`:
        -- the matched group is a nonempty word, so "anonymous" is the
        -- unreachable default.
        create_node ("Function: " ++ String.mk fname) "function" (some current_id) s
      | none => (current_id, s)
    else if pyStartsWith line "if" then
      let condition_text :=
        match search_kw_paren "if".toList l with
        | some g => String.mk g
        | none => "condition"
      create_node ("If: " ++ condition_text) "condition" (some current_id) s
    else if pyStartsWith line "for" then
      let loop_text :=
        match search_kw_paren "for".toList l with
        | some g => String.mk g
        | none => "loop"
      create_node ("For: " ++ loop_text) "condition" (some current_id) s
    else if pyStartsWith line "while" then
      let condition_text :=
        match search_kw_paren "while".toList l with
        | some g => String.mk g
        | none => "condition"
      create_node ("While: " ++ condition_text) "condition" (some current_id) s
    else if (search_name_paren l).isSome
        && !(pyStartsWith line "if") && !(pyStartsWith line "for")
        && !(pyStartsWith line "while") then
      match search_name_paren l with
      | some fname =>
        create_node ("Call: " ++ String.mk fname ++ "()") "function" (some current_id) s
      | none => (current_id, s)
    else if pyStartsWith line "return" then
      create_node "Return" "process" (some current_id) s
    else
      (current_id, s)

/-- `TypeScriptParser.parse_lines` (lines 44-95). -/
def ts_parse_lines (lines : List String) (s : PState) : PState :=
  let r0 := create_node "Start" "start" none s
  let r1 := lines.foldl (fun (acc : String × PState) line =>
    ts_line_step acc.1 acc.2 line) r0
  (create_node "End" "end" (some r1.1) r1.2).2

/-- The builder state produced by `TypeScriptParser.parse` from a fresh
reset. -/
def ts_parse_state (code_content : String) : PState :=
  ts_parse_lines (splitLines code_content)
    { node_counter := 0, nodes := [], edges := [] }

/-- `TypeScriptParser.parse` (typescript_parser.py lines 10-23). -/
def ts_parse (code_content : String) (file_path : String) : FlowData :=
  let s := ts_parse_state code_content
  { nodes := s.nodes, edges := s.edges, file_path := file_path }

/-- `TypeScriptParser.parse` as the method on a parser instance
(state reset at entry, lines 12-14). -/
def ts_parse_method (_inst : LineParserInst) (src : SourceText)
    (file_path : String) : FlowData × LineParserInst :=
  let s := ts_parse_state src.text
  ({ nodes := s.nodes, edges := s.edges, file_path := file_path },
   { node_counter := s.node_counter, nodes := s.nodes, edges := s.edges })

/-! ### The orchestrator (`CodeFlowApp.analyze_code`, `analyze_directory`) -/

/-- The extension part of `os.path.splitext(p)` (posixpath): the suffix
from the last dot of the basename, unless every character before that dot
in the basename is itself a dot. -/
def pysplitext_ext (p : String) : String :=
  let base := (splitOnChar '/' p.toList).getLastD []
  let revAfter := base.reverse.takeWhile (fun c => c ≠ '.')
  if revAfter.length = base.length then ""
  else
    let stem := base.take (base.length - revAfter.length - 1)
    if stem.all (fun c => c = '.') then ""
    else String.mk ('.' :: revAfter.reverse)

/-- `detect_language` (app.py lines 18-27). -/
def detect_language (file_path : String) : Option String :=
  let ext := pyToLower (pysplitext_ext file_path)
  if [".py"].contains ext then some "python"
  else if [".cpp", ".c", ".cc", ".cxx", ".h", ".hpp"].contains ext then some "cpp"
  else if [".ts", ".js", ".tsx", ".jsx"].contains ext then some "typescript"
  else none

/-- The result dict of `analyze_code` (dynamic keys modelled as optional
fields; an absent key is `none`). -/
structure AnalyzeResult where
  error : Option String := none
  language : Option String := none
  flow_data : Option FlowData := none
  mermaid_code : Option String := none
  detailed_mermaid : Option String := none
  file_path : Option String := none
deriving Repr, DecidableEq

/-- `self.parsers.get(language).parse(...)` with the instances built in
`CodeFlowApp.__init__` (app.py lines 10-16): the three fixed parsers,
each of whose `parse` resets its instance state at entry (so the shared
instances' results do not depend on prior parses; see the determinism
theorems below).  `none` models a language without a parser. -/
def dispatch_parse (language : String) (src : SourceText) (file_path : String) :
    Option (Except String FlowData) :=
  if language = "python" then
    some (match src.pyOutcome with
      | .syntaxError e => .error ("Python syntax error: " ++ e)
      | .parsed tree => .ok (parse_flow tree file_path))
  else if language = "cpp" then
    some (.ok (cpp_parse src.text file_path))
  else if language = "typescript" then
    some (.ok (ts_parse src.text file_path))
  else none

/-- `CodeFlowApp.analyze_code` (app.py lines 29-57).  `readFile` is the
filesystem boundary (`open(...).read()`, success or an `IOError`
rendering); `code_content = some src` models a provided (truthy,
nonempty) source text.  Any exception from `parser.parse` is caught and
becomes the `{'error': 'Parsing error: ...'}` dict; the success dict
carries the flow data and both diagrams and no `error` key. -/
def analyze_code (readFile : String → Except String SourceText)
    (file_path : String) (code_content : Option SourceText) : AnalyzeResult :=
  let langContent : Except AnalyzeResult (String × SourceText) :=
    match code_content with
    | some src => .ok ((detect_language file_path).getD "python", src)
    | none =>
      match detect_language file_path with
      | none => .error { error := some "Unsupported file type" }
      | some language =>
        match readFile file_path with
        | .error e => .error { error := some ("Error reading file: " ++ e) }
        | .ok src => .ok (language, src)
  match langContent with
  | .error r => r
  | .ok (language, src) =>
    match dispatch_parse language src file_path with
    | none => { error := some ("No parser available for " ++ language) }
    | some (.error e) => { error := some ("Parsing error: " ++ e) }
    | some (.ok flow_data) =>
      { language := some language,
        flow_data := some flow_data,
        mermaid_code := some (generate_function_flow_mermaid flow_data),
        detailed_mermaid := some (generate_detailed_mermaid flow_data) }

/-- The extension filter of `analyze_directory` (app.py line 346). -/
def supported_extensions : List String :=
  [".py", ".cpp", ".c", ".cc", ".cxx", ".h", ".hpp", ".ts", ".js", ".tsx", ".jsx"]

/-- The `analyze_directory` route (app.py lines 337-356): for every
walked file whose name ends in a supported extension, analyze it (with
no in-memory content, so the file is read from disk) and tag the result
dict with its path.  `walked_files` is the flattened `os.walk`
enumeration - the filesystem boundary. -/
def analyze_directory (readFile : String → Except String SourceText)
    (walked_files : List String) : List AnalyzeResult :=
  (walked_files.filter fun file =>
    supported_extensions.any fun ext => pyEndsWith file ext).map
    fun file_path =>
      { analyze_code readFile file_path none with file_path := some file_path }

/-! ## Theorems -/

set_option maxRecDepth 16000

/-- **C10.** Calling `parse` twice on the same source text through the same
shared parser instance yields identical node and edge lists: every `parse`
method resets the node counter, node list, edge list and per-parse state at
entry, so the parser instances shared across all requests
(`CodeFlowApp.__init__`) carry no state from one file to the next.  Stated
as full independence of the outcome from the incoming instance state for
all three shared parsers, together with the explicit two-run form for the
Python and C++ parsers. -/
theorem c10_shared_parser_state_reset :
    (∀ (inst1 inst2 : ParserInst) (src : SourceText) (fp : String),
      python_parse_method inst1 src fp = python_parse_method inst2 src fp) ∧
    (∀ (inst1 inst2 : LineParserInst) (src : SourceText) (fp : String),
      cpp_parse_method inst1 src fp = cpp_parse_method inst2 src fp) ∧
    (∀ (inst1 inst2 : LineParserInst) (src : SourceText) (fp : String),
      ts_parse_method inst1 src fp = ts_parse_method inst2 src fp) ∧
    (∀ (inst : ParserInst) (src : SourceText) (fp : String),
      (python_parse_method (python_parse_method inst src fp).2 src fp).1 =
        (python_parse_method inst src fp).1) ∧
    (∀ (inst : LineParserInst) (src : SourceText) (fp : String),
      (cpp_parse_method (cpp_parse_method inst src fp).2 src fp).1 =
        (cpp_parse_method inst src fp).1) :=
  ⟨fun _ _ _ _ => rfl, fun _ _ _ _ => rfl, fun _ _ _ _ => rfl,
   fun _ _ _ => rfl, fun _ _ _ => rfl⟩

/-- **C9 counterexample.** The claim fails as stated: `clean_label` strips
surrounding whitespace and measures the *cleaned* text, not the original
label.  A 31-character label consisting of 30 `a`s and a trailing space is
longer than 30 characters yet does not render as its first 27 characters
plus an ellipsis (it renders as the stripped 30 `a`s); and the 2-character
label `" a"` renders as `"a"`, which differs from mere quote/newline
substitution. -/
theorem c9_counterexample :
    ("aaaaaaaaaaaaaaaaaaaaaaaaaaaaaa ".length > 30 ∧
      clean_label "aaaaaaaaaaaaaaaaaaaaaaaaaaaaaa "
        ≠ "aaaaaaaaaaaaaaaaaaaaaaaaaaaaaa ".take 27 ++ "...") ∧
    (" a".length ≤ 30 ∧
      clean_label " a"
        ≠ String.mk (" a".toList.map fun c =>
            if c = '"' then '\'' else if c = '\n' then ' ' else c)) := by
  decide

/-- **C9 (amended).** For every label, let the *cleaned* text be the label
with double quotes replaced by single quotes and newlines by spaces and
with surrounding whitespace stripped; when the cleaned text is longer than
30 characters the label renders as the cleaned text's first 27 characters
followed by the ellipsis marker (total length 30), and otherwise it renders
as the cleaned text itself. -/
theorem c9_label_truncation (label : String) :
    (let cleaned := pyStrip (String.mk (label.toList.map fun c =>
        if c = '"' then '\'' else if c = '\n' then ' ' else c));
      (cleaned.length > 30 →
        clean_label label = cleaned.take 27 ++ "..." ∧
          (clean_label label).length = 30) ∧
      (cleaned.length ≤ 30 → clean_label label = cleaned)) := by
  intro cleaned
  have hc : clean_label label =
      if cleaned.length > 30 then cleaned.take 27 ++ "..." else cleaned := rfl
  constructor
  · intro h
    refine ⟨by rw [hc, if_pos h], ?_⟩
    rw [hc, if_pos h, String.length_append, String.take_eq]
    have h' : 30 < cleaned.data.length := h
    simp only [String.length, List.length_take, List.length_cons, List.length_nil]
    omega
  · intro h
    rw [hc, if_neg (by omega)]

/-- **C9 witness.** The amended truncation theorem applied to one label in
each length regime. -/
theorem c9_label_truncation_witness :
    (clean_label "aaaaaaaaaaaaaaaaaaaaaaaaaaaaaaaaaaa"
        = "aaaaaaaaaaaaaaaaaaaaaaaaaaa..." ∧
      (clean_label "aaaaaaaaaaaaaaaaaaaaaaaaaaaaaaaaaaa").length = 30) ∧
    clean_label " a\"b " = "a'b" := by
  refine ⟨?_, ?_⟩
  · have h := (c9_label_truncation "aaaaaaaaaaaaaaaaaaaaaaaaaaaaaaaaaaa").1 (by decide)
    exact ⟨by rw [h.1]; decide, h.2⟩
  · have h := (c9_label_truncation " a\"b ").2 (by decide)
    rw [h]; decide

/-- **C3.** For every for-loop processed in structured mode, an edge is
created from the loop body's tail back to the loop's condition node with
label `"Next"`, a separate fresh exit node (`"Loop Complete"`) is created
with an edge from the condition node labelled `"Done"`, and the returned
cursor is that exit node; for every while-loop the back-edge is unlabelled,
the exit node is `"Loop Exit"`, the exit edge is labelled `"False"`, and
the cursor again advances to the exit node.  (The intermediate `let`s name
the definition's own condition node `r0.1`, body entry `r1.1` and body tail
`rb.1`.) -/
theorem c3_loop_back_edge_and_exit :
    (∀ (target iter : Expr) (body : List Stmt) (parent_id : String) (s : PState),
      let r0 := create_node ("For " ++ unparse target ++ " in " ++ unparse iter)
        "condition" (some parent_id) s
      let r1 := create_node "Loop Body" "process" none r0.2
      let s1 := addEdge r1.2 { fromId := r0.1, toId := r1.1, label := some "Each Item" }
      let rb := process_block body r1.1 s1
      let r := process_for_loop target iter body parent_id s
      ({ fromId := rb.1, toId := r0.1, label := some "Next" : Edge } ∈ r.2.edges) ∧
      r.1 = "node_" ++ toString rb.2.node_counter ∧
      (∃ pre, r.2.nodes = pre ++ [{ id := r.1, label := "Loop Complete", type := "process" }]) ∧
      ({ fromId := r0.1, toId := r.1, label := some "Done" : Edge } ∈ r.2.edges)) ∧
    (∀ (test : Expr) (body : List Stmt) (parent_id : String) (s : PState),
      let r0 := create_node ("While: " ++ get_condition_text test)
        "condition" (some parent_id) s
      let r1 := create_node "Loop Body" "process" none r0.2
      let s1 := addEdge r1.2 { fromId := r0.1, toId := r1.1, label := some "True" }
      let rb := process_block body r1.1 s1
      let r := process_while_loop test body parent_id s
      ({ fromId := rb.1, toId := r0.1, label := none : Edge } ∈ r.2.edges) ∧
      r.1 = "node_" ++ toString rb.2.node_counter ∧
      (∃ pre, r.2.nodes = pre ++ [{ id := r.1, label := "Loop Exit", type := "process" }]) ∧
      ({ fromId := r0.1, toId := r.1, label := some "False" : Edge } ∈ r.2.edges)) := by
  constructor
  · intro target iter body parent_id s
    simp only [process_for_loop, create_node, addEdge]
    refine ⟨?_, ?_, ⟨_, rfl⟩, ?_⟩ <;> simp
  · intro test body parent_id s
    simp only [process_while_loop, create_node, addEdge]
    refine ⟨?_, ?_, ⟨_, rfl⟩, ?_⟩ <;> simp

/-- **C4 counterexample.** The claim fails as stated: after a return
statement, the cursor *is* the return's end node, so the next statement in
the same body is linked *from* it.  Processing `[return, if c: ...]` from
cursor `"p"` creates the end node `node_0` for the return and then the
edge `node_0 -> node_1` into the following if-statement's condition
node. -/
theorem c4_counterexample :
    (let r := process_block [Stmt.returnStmt none, Stmt.ifStmt (Expr.name "c") [] []]
      "p" { node_counter := 0, nodes := [], edges := [] }
    r.2.nodes.head? = some { id := "node_0", label := "Return", type := "end" } ∧
      ({ fromId := "node_0", toId := "node_1" : Edge } ∈ r.2.edges)) := by
  simp only [process_block, process_statement, process_return_statement,
    process_if_statement, create_node, addEdge, get_condition_text, unparse]
  decide

/-- **C4 (amended).** A return statement becomes an `end`-kind node linked
from the current cursor, and the cursor advances to it; statements that
follow the return in the same body are still visited, but they are
processed with the return's end node as their predecessor (so a later
flow-producing statement is linked *from* the return node, rather than
being left unlinked). -/
theorem c4_return_node_and_threading :
    (∀ (value : Option Expr) (parent_id : String) (s : PState),
      process_return_statement value parent_id s =
        ("node_" ++ toString s.node_counter,
         { node_counter := s.node_counter + 1,
           nodes := s.nodes ++
             [{ id := "node_" ++ toString s.node_counter,
                label := (match value with
                          | some v => "Return: " ++ unparse v
                          | none => "Return"),
                type := "end" }],
           edges := s.edges ++
             [{ fromId := parent_id,
                toId := "node_" ++ toString s.node_counter }] })) ∧
    (∀ (value : Option Expr) (rest : List Stmt) (current_id : String) (s : PState),
      process_block (Stmt.returnStmt value :: rest) current_id s =
        process_block rest (process_return_statement value current_id s).1
          (process_return_statement value current_id s).2) := by
  constructor
  · intro value parent_id s
    cases value <;> simp [process_return_statement, create_node]
  · intro value rest current_id s
    conv_lhs => rw [process_block]
    simp only [process_statement]

/-- **C7 counterexample.** The claim fails as stated: a call expression
used as a statement is `ast.Expr(ast.Call)`, which falls into the final
`else` of `process_statement` (the `isinstance(stmt, ast.Call)` test never
fires for statements), so *no* node is created for `foo()` in a function
body; and when a call node *is* produced (assignment right-hand side), its
kind is `"function"`, not `"call"` - no node of kind `"call"` is ever
created. -/
theorem c7_counterexample :
    ((parse_flow [Stmt.functionDef "f"
        [Stmt.exprStmt (Expr.call (Expr.name "foo") [])]] "x.py").nodes.map
          Node.label = ["Program Start", "Function: f", "Program End"]) ∧
    ((process_assignment [Expr.name "x"] (Expr.call (Expr.name "foo") []) "p"
        { node_counter := 0, nodes := [], edges := [] }).2.nodes =
      [{ id := "node_0", label := "Call: foo()", type := "function" }]) := by
  constructor
  · simp [parse_flow, collect_functions, walk, astChildren,
      extract_function_calls, create_function_flows, funcs_loop, create_node,
      addEdge, create_function_body_flow, process_block, process_statement,
      is_main_function_call, add_function_call_edges, dLookup, List.filterMap]
  · simp only [process_assignment, process_function_call, call_func_name, create_node]
    decide

/-- **C7 (amended).** A bare call expression used as a statement is
skipped in structured mode (the cursor and state pass through unchanged,
because statement-position calls are `ast.Expr` nodes and the
`isinstance(stmt, ast.Call)` branch is unreachable); a call appearing as
the right-hand side of a single-name-target assignment becomes a
`"function"`-kind node labelled `"Call: <name>()"`, with `<name>` resolved
as the bare identifier for a direct call, `<owner>.<method>` for an
attribute-style call, and the placeholder `"function"` otherwise. -/
theorem c7_call_statement_handling :
    (∀ (f : Expr) (args : List Expr) (parent_id : String) (s : PState),
      process_statement (Stmt.exprStmt (Expr.call f args)) parent_id s =
        (parent_id, s)) ∧
    (∀ (var : String) (f : Expr) (args : List Expr) (parent_id : String) (s : PState),
      process_assignment [Expr.name var] (Expr.call f args) parent_id s =
        create_node ("Call: " ++ call_func_name f ++ "()") "function"
          (some parent_id) s) ∧
    (∀ id, call_func_name (Expr.name id) = id) ∧
    (∀ v attr, call_func_name (Expr.attribute v attr) = unparse v ++ "." ++ attr) ∧
    (∀ f args, call_func_name (Expr.call f args) = "function") ∧
    (∀ t, call_func_name (Expr.constant_ t) = "function") := by
  refine ⟨?_, ?_, fun _ => rfl, fun _ _ => rfl, fun _ _ => rfl, fun _ => rfl⟩
  · intro f args parent_id s
    simp [process_statement]
  · intro var f args parent_id s
    simp [process_assignment, process_function_call]

/-- **C2.** For every if statement processed in structured mode, exactly
one fresh merge node (`"Continue"`, kind `process`) is created; the
then-branch tail (and the else-branch tail when an else exists) connects
into it by an unlabelled edge; when no else branch exists the condition
node itself also connects directly into the merge node with label `"No"`;
and the returned cursor is the merge node.  Likewise, for every try
statement with handlers, the protected-block tail and the handler tail
both connect into one fresh common merge node, which becomes the cursor.
(The `let`s name the definition's own intermediates: condition node
`r0.1`, then-tail `rb.1`, else-tail `re.1`, try tail `rb.1`, handler tail
`rh.1`.) -/
theorem c2_branch_merge_closure :
    (∀ (test : Expr) (body orelse : List Stmt) (parent_id : String) (s : PState),
      let r0 := create_node ("If: " ++ get_condition_text test) "condition"
        (some parent_id) s
      let r1 := create_node "If True" "process" none r0.2
      let s1 := addEdge r1.2 { fromId := r0.1, toId := r1.1, label := some "Yes" }
      let rb := process_block body r1.1 s1
      let r := process_if_statement test body orelse parent_id s
      (orelse = [] →
        r.1 = "node_" ++ toString rb.2.node_counter ∧
        r.2.nodes = rb.2.nodes ++ [{ id := r.1, label := "Continue", type := "process" }] ∧
        r.2.edges = rb.2.edges ++
          [{ fromId := rb.1, toId := r.1 },
           { fromId := r0.1, toId := r.1, label := some "No" }]) ∧
      (orelse ≠ [] →
        let r3 := create_node "If False" "process" none rb.2
        let s3 := addEdge r3.2 { fromId := r0.1, toId := r3.1, label := some "No" }
        let re := process_block orelse r3.1 s3
        r.1 = "node_" ++ toString re.2.node_counter ∧
        r.2.nodes = re.2.nodes ++ [{ id := r.1, label := "Continue", type := "process" }] ∧
        r.2.edges = re.2.edges ++
          [{ fromId := rb.1, toId := r.1 },
           { fromId := re.1, toId := r.1 }])) ∧
    (∀ (body : List Stmt) (handlers : List (List Stmt)) (parent_id : String) (s : PState),
      handlers ≠ [] →
      let r0 := create_node "Try Block" "process" (some parent_id) s
      let rb := process_block body r0.1 r0.2
      let r2 := create_node "Exception Handler" "process" none rb.2
      let s2 := addEdge r2.2 { fromId := r0.1, toId := r2.1, label := some "Error" }
      let rh := process_handlers handlers r2.1 s2
      let r := process_try_statement body handlers parent_id s
      r.1 = "node_" ++ toString rh.2.node_counter ∧
      r.2.nodes = rh.2.nodes ++ [{ id := r.1, label := "Continue", type := "process" }] ∧
      r.2.edges = rh.2.edges ++
        [{ fromId := rb.1, toId := r.1 },
         { fromId := rh.1, toId := r.1 }]) := by
  constructor
  · intro test body orelse parent_id s
    constructor
    · intro horelse
      subst horelse
      simp [process_if_statement, create_node, addEdge]
    · intro horelse
      have hne : orelse.isEmpty = false := by
        cases orelse with
        | nil => exact absurd rfl horelse
        | cons a l => rfl
      simp [process_if_statement, create_node, addEdge, hne]
  · intro body handlers parent_id s hne
    have hne' : handlers.isEmpty = false := by
      cases handlers with
      | nil => exact absurd rfl hne
      | cons a l => rfl
    simp [process_try_statement, create_node, addEdge, hne']

/-- **C2 witness.** The merge theorem applied to a concrete else-less if
statement and a concrete try statement with one handler. -/
theorem c2_branch_merge_closure_witness :
    ((process_if_statement (Expr.name "c") [] [] "p"
        { node_counter := 0, nodes := [], edges := [] }).1 = "node_2" ∧
      ({ fromId := "node_0", toId := "node_2", label := some "No" : Edge } ∈
        (process_if_statement (Expr.name "c") [] [] "p"
          { node_counter := 0, nodes := [], edges := [] }).2.edges)) ∧
    ((process_try_statement [] [[]] "p"
        { node_counter := 0, nodes := [], edges := [] }).1 = "node_2") := by
  have hif := (c2_branch_merge_closure.1 (Expr.name "c") [] [] "p"
    { node_counter := 0, nodes := [], edges := [] }).1 rfl
  have htry := c2_branch_merge_closure.2 [] [[]] "p"
    { node_counter := 0, nodes := [], edges := [] } (List.cons_ne_nil _ _)
  simp only [process_block, process_handlers, create_node, addEdge] at hif htry
  obtain ⟨h1, _h2, h3⟩ := hif
  rw [h1] at h3
  refine ⟨⟨?_, ?_⟩, ?_⟩
  · rw [h1]; decide
  · rw [h3]; decide
  · rw [htry.1]; decide

theorem pySetDedupAux_mem (l : List String) (seen : List String) (x : String) :
    x ∈ pySetDedupAux seen l ↔ x ∈ l ∧ x ∉ seen := by
  induction l generalizing seen with
  | nil => simp [pySetDedupAux]
  | cons a rest ih =>
    simp only [pySetDedupAux]
    by_cases h : a ∈ seen
    · rw [if_pos h, ih]
      constructor
      · rintro ⟨hx, hn⟩
        exact ⟨List.mem_cons_of_mem _ hx, hn⟩
      · rintro ⟨hx, hn⟩
        rcases List.mem_cons.mp hx with rfl | hx
        · exact absurd h hn
        · exact ⟨hx, hn⟩
    · rw [if_neg h]
      by_cases hxa : x = a
      · subst hxa
        simp [h]
      · simp [List.mem_cons, ih, hxa]

theorem pySetDedupAux_nodup (l : List String) (seen : List String) :
    (pySetDedupAux seen l).Nodup := by
  induction l generalizing seen with
  | nil => simp [pySetDedupAux]
  | cons a rest ih =>
    simp only [pySetDedupAux]
    by_cases h : a ∈ seen
    · rw [if_pos h]; exact ih _
    · rw [if_neg h]
      rw [List.nodup_cons]
      refine ⟨fun hmem => ?_, ih _⟩
      have := (pySetDedupAux_mem rest (a :: seen) a).mp hmem
      exact this.2 (List.mem_cons_self a seen)

/-- The inner `for call in func['calls']:` loop of
`add_function_call_edges` appends one dotted edge per call occurrence
whose name is bound in `function_nodes`. -/
theorem call_edges_inner (function_nodes : List (String × String))
    (from_id : String) (calls : List String) (s : PState) :
    calls.foldl
      (fun s call =>
        match dLookup function_nodes call with
        | none => s
        | some to_id =>
          addEdge s { fromId := from_id, toId := to_id,
                      label := some "calls", style := some "dotted" }) s =
    { s with edges := s.edges ++ calls.filterMap (fun call =>
        (dLookup function_nodes call).map fun to_id =>
          { fromId := from_id, toId := to_id,
            label := some "calls", style := some "dotted" }) } := by
  induction calls generalizing s with
  | nil => simp
  | cons c rest ih =>
    simp only [List.foldl_cons, List.filterMap_cons]
    cases hd : dLookup function_nodes c with
    | none => rw [ih]; simp
    | some to_id => rw [ih]; simp [addEdge]

/-- **C6 counterexample.** The claim fails as stated: the call-graph
linker deduplicates nothing and consults no denylist.  A function `f`
calling `g` twice yields *two* identical dotted `calls` edges; and a
user-defined function named `print` (a denylist name:
`is_builtin_function "print" = true`) still receives a dotted `calls`
edge from its caller. -/
theorem c6_counterexample :
    (((parse_flow [Stmt.functionDef "f"
          [Stmt.exprStmt (Expr.call (Expr.name "g") []),
           Stmt.exprStmt (Expr.call (Expr.name "g") [])],
        Stmt.functionDef "g" [Stmt.otherStmt]] "x.py").edges.filter
          (fun e => e.style = some "dotted")).length = 2) ∧
    (is_builtin_function "print" = true ∧
      ({ fromId := "node_2", toId := "node_1",
         label := some "calls", style := some "dotted" : Edge } ∈
        (parse_flow [Stmt.functionDef "print" [Stmt.otherStmt],
          Stmt.functionDef "f"
            [Stmt.exprStmt (Expr.call (Expr.name "print") [])]] "x.py").edges)) := by
  refine ⟨?_, by decide, ?_⟩ <;>
    (first
      | (simp [parse_flow, collect_functions, walk, astChildren,
          extract_function_calls, create_function_flows, funcs_loop, create_node,
          addEdge, create_function_body_flow, process_block, process_statement,
          is_main_function_call, add_function_call_edges, dLookup,
          List.filterMap]
         done)
      | (simp [parse_flow, collect_functions, walk, astChildren,
          extract_function_calls, create_function_flows, funcs_loop, create_node,
          addEdge, create_function_body_flow, process_block, process_statement,
          is_main_function_call, add_function_call_edges, dLookup,
          List.filterMap]
         decide))

/-- **C6 (amended).** `add_function_call_edges` adds one dotted
`"calls"` edge *per call occurrence* whose resolved name matches a
function defined in the same file - duplicate calls are not collapsed and
the built-in denylist is not consulted; the set-based deduplication and
the denylist filter apply only in the function-flow renderer's per-
function call extraction (`extract_function_calls_for_function`), whose
result is duplicate-free and denylist-clean. -/
theorem c6_call_edges_per_occurrence :
    (∀ (functions : List PyFunc) (function_nodes : List (String × String)) (s : PState),
      add_function_call_edges functions function_nodes s =
        { s with edges := s.edges ++ functions.flatMap (fun func =>
            match dLookup function_nodes func.name with
            | none => []
            | some from_id =>
              func.calls.filterMap fun call =>
                (dLookup function_nodes call).map fun to_id =>
                  { fromId := from_id, toId := to_id,
                    label := some "calls", style := some "dotted" }) }) ∧
    (∀ (name : String) (flow_data : FlowData),
      (extract_function_calls_for_function name flow_data).Nodup ∧
      ∀ c ∈ extract_function_calls_for_function name flow_data,
        is_builtin_function c = false) := by
  constructor
  · intro functions function_nodes s
    simp only [add_function_call_edges]
    induction functions generalizing s with
    | nil => simp
    | cons func rest ih =>
      simp only [List.foldl_cons, List.flatMap_cons]
      rw [ih]
      cases hd : dLookup function_nodes func.name with
      | none => simp
      | some from_id =>
        simp only []
        rw [call_edges_inner]
        simp
  · intro name flow_data
    refine ⟨pySetDedupAux_nodup _ _, ?_⟩
    intro c hc
    simp only [extract_function_calls_for_function, pySetDedup] at hc
    have hmem := (pySetDedupAux_mem _ _ _).mp hc
    -- every element accumulated by the fold passed the denylist test
    have key : ∀ (nodes : List Node) (acc : List String),
        (∀ x ∈ acc, is_builtin_function x = false) →
        ∀ x ∈ nodes.foldl
          (fun calls node =>
            if node.type = "function" ∧ strContainsSub node.label "Call:" then
              let call_name := pyStrip (strReplace (strReplace node.label "Call: " "") "()" "")
              if is_builtin_function call_name then calls else calls ++ [call_name]
            else calls) acc,
          is_builtin_function x = false := by
      intro nodes
      induction nodes with
      | nil => intro acc hacc x hx; exact hacc x hx
      | cons n rest ih =>
        intro acc hacc x hx
        simp only [List.foldl_cons] at hx
        refine ih _ ?_ x hx
        by_cases hc1 : n.type = "function" ∧ strContainsSub n.label "Call:"
        · rw [if_pos hc1]
          by_cases hb : is_builtin_function
              (pyStrip (strReplace (strReplace n.label "Call: " "") "()" "")) = true
          · simp only [if_pos hb]
            exact hacc
          · simp only [if_neg hb]
            intro y hy
            rcases List.mem_append.mp hy with hy | hy
            · exact hacc y hy
            · rcases List.mem_singleton.mp hy with rfl
              exact Bool.eq_false_iff.mpr hb
        · rw [if_neg hc1]
          exact hacc
    exact key flow_data.nodes [] (by intro x hx; cases hx) c hmem.1

/-- **C6 witness.** The per-occurrence characterization applied to a
concrete caller with a duplicated call (two dotted edges appear), and the
renderer-side guarantee applied to a concrete flow graph with one call
node. -/
theorem c6_call_edges_per_occurrence_witness :
    ((add_function_call_edges
        [{ name := "f", body := [], calls := ["g", "g"] }]
        [("f", "node_1"), ("g", "node_2")]
        { node_counter := 0, nodes := [], edges := [] }).edges.length = 2) ∧
    is_builtin_function "g" = false := by
  constructor
  · rw [c6_call_edges_per_occurrence.1]
    decide
  · have h2 := (c6_call_edges_per_occurrence.2 "f"
      { nodes := [{ id := "node_0", label := "Call: g()", type := "function" }],
        edges := [], file_path := "x.py", functions := none }).2
    refine h2 "g" ?_
    simp [extract_function_calls_for_function, pySetDedup, pySetDedupAux,
      strReplace, replaceAux, pyStrip, pyWhitespace, is_builtin_function,
      strContainsSub]

/-- **C8 counterexample.** The claim fails as stated: the per-function
scoping check (`is_node_in_function`) is a stub returning `True`, so
`has_conditions` is a property of the whole graph.  For a file defining
`f` (whose body contains an if) and `g` (whose body contains only a
`pass`, which produces no node at all), *both* functions are reported
with `has_conditions = true`, and the function-flow diagram emits a
`g_LOGIC` decision node for `g` even though `g`'s own body contains no
conditional. -/
theorem c8_counterexample :
    ((extract_function_info (parse_flow
        [Stmt.functionDef "f" [Stmt.ifStmt (Expr.name "c") [] []],
         Stmt.functionDef "g" [Stmt.otherStmt]] "x.py")).map
        (fun i => (i.name, i.has_conditions)) = [("f", true), ("g", true)]) ∧
    (strContainsSub (generate_function_flow_mermaid (parse_flow
        [Stmt.functionDef "f" [Stmt.ifStmt (Expr.name "c") [] []],
         Stmt.functionDef "g" [Stmt.otherStmt]] "x.py")) "g_LOGIC" = true) ∧
    (process_block [Stmt.otherStmt] "p" { node_counter := 0, nodes := [], edges := [] } =
      ("p", { node_counter := 0, nodes := [], edges := [] })) := by
  refine ⟨?_, ?_, ?_⟩
  · simp [parse_flow, collect_functions, walk, astChildren,
      extract_function_calls, create_function_flows, funcs_loop, create_node,
      addEdge, create_function_body_flow, process_block, process_statement,
      process_if_statement, is_main_function_call, add_function_call_edges,
      dLookup, List.filterMap, get_condition_text, unparse,
      extract_function_info, extract_function_calls_for_function, pySetDedup,
      pySetDedupAux, strReplace, replaceAux, pyStrip, pyWhitespace,
      is_builtin_function, strContainsSub, is_node_in_function, make_safe_id,
      pyToLower]
  · simp [parse_flow, collect_functions, walk, astChildren,
      extract_function_calls, create_function_flows, funcs_loop, create_node,
      addEdge, create_function_body_flow, process_block, process_statement,
      process_if_statement, is_main_function_call, add_function_call_edges,
      dLookup, List.filterMap, get_condition_text, unparse,
      extract_function_info, extract_function_calls_for_function, pySetDedup,
      pySetDedupAux, strReplace, replaceAux, pyStrip, pyWhitespace,
      is_builtin_function, strContainsSub, is_node_in_function, make_safe_id,
      pyToLower, generate_function_flow_mermaid, function_block,
      call_relationship_block, end_block]
  · simp [process_block, process_statement]

/-- **C8 (amended).** In function-flow rendering mode the synthetic
`<name>_LOGIC` / `<name>_RETURN` block is emitted for a listed function
exactly when its `has_conditions` flag is set, and - because the
function-scoping check is the always-true stub `is_node_in_function` -
that flag holds for *every* listed function exactly when the graph as a
whole contains at least one condition node; a function whose own body has
no conditional still receives both synthetic nodes whenever any function
in the file contains a conditional. -/
theorem c8_logic_nodes_are_global (flow_data : FlowData) :
    (∀ func ∈ extract_function_info flow_data,
      func.has_conditions = flow_data.nodes.any (fun n => n.type == "condition")) ∧
    (∀ func : FuncInfo,
      (func.has_conditions = false →
        function_block func =
          "    " ++ make_safe_id func.name ++ "[" ++ func.name ++ "]\n"
            ++ "    class " ++ make_safe_id func.name ++ " func\n") ∧
      (func.has_conditions = true →
        function_block func =
          ("    " ++ make_safe_id func.name ++ "[" ++ func.name ++ "]\n"
            ++ "    class " ++ make_safe_id func.name ++ " func\n")
          ++ "    " ++ (make_safe_id func.name ++ "_LOGIC") ++ "\x7b"
            ++ func.name ++ " Decision Logic\x7d\n"
          ++ "    class " ++ (make_safe_id func.name ++ "_LOGIC") ++ " decision\n"
          ++ "    " ++ make_safe_id func.name ++ " --> "
            ++ (make_safe_id func.name ++ "_LOGIC") ++ "\n"
          ++ "    " ++ (make_safe_id func.name ++ "_RETURN") ++ "[Return from "
            ++ func.name ++ "]\n"
          ++ "    class " ++ (make_safe_id func.name ++ "_RETURN") ++ " important\n"
          ++ "    " ++ (make_safe_id func.name ++ "_LOGIC") ++ " --> "
            ++ (make_safe_id func.name ++ "_RETURN") ++ "\n")) := by
  constructor
  · have key : ∀ (nodes : List Node) (acc : List FuncInfo),
        (∀ f ∈ acc, f.has_conditions =
          flow_data.nodes.any (fun n => n.type == "condition")) →
        ∀ f ∈ nodes.foldl
          (fun functions node =>
            if node.type = "function" ∧ strContainsSub node.label "Function:" then
              let func_name := pyStrip (strReplace node.label "Function: " "")
              if functions.any (·.name = func_name) then functions
              else
                let has_conditions := flow_data.nodes.any fun n =>
                  is_node_in_function n func_name flow_data && n.type == "condition"
                functions ++ [{ name := func_name, safe_name := make_safe_id func_name,
                                has_conditions := has_conditions, node_id := node.id,
                                calls := extract_function_calls_for_function func_name flow_data }]
            else functions) acc,
          f.has_conditions = flow_data.nodes.any (fun n => n.type == "condition") := by
      intro nodes
      induction nodes with
      | nil => intro acc hacc f hf; exact hacc f hf
      | cons n rest ih =>
        intro acc hacc f hf
        simp only [List.foldl_cons] at hf
        refine ih _ ?_ f hf
        by_cases hc1 : n.type = "function" ∧ strContainsSub n.label "Function:"
        · rw [if_pos hc1]
          by_cases hc2 : acc.any
              (·.name = pyStrip (strReplace n.label "Function: " ""))
          · simp only [if_pos hc2]
            exact hacc
          · simp only [if_neg hc2]
            intro g hg
            rcases List.mem_append.mp hg with hg | hg
            · exact hacc g hg
            · rcases List.mem_singleton.mp hg with rfl
              simp [is_node_in_function]
        · rw [if_neg hc1]
          exact hacc
    intro func hfunc
    exact key flow_data.nodes [] (by intro f hf; cases hf) func hfunc
  · intro func
    constructor
    · intro h
      simp only [function_block, h, Bool.false_eq_true, if_false]
    · intro h
      simp only [function_block, h, if_true]

/-- **C8 witness.** The amended theorem applied to a concrete one-function
graph (the listed function's flag equals the global condition test) and to
a concrete `FuncInfo` without conditions (whose block carries no synthetic
nodes). -/
theorem c8_logic_nodes_are_global_witness :
    (({ name := "g", safe_name := "g", has_conditions := false,
        node_id := "node_1", calls := [] : FuncInfo }).has_conditions =
      ([{ id := "node_1", label := "Function: g", type := "function" }] :
        List Node).any (fun n => n.type == "condition")) ∧
    function_block { name := "g", safe_name := "g", has_conditions := false,
                     node_id := "node_1", calls := [] } =
      "    g[g]\n    class g func\n" := by
  constructor
  · exact (c8_logic_nodes_are_global
      { nodes := [{ id := "node_1", label := "Function: g", type := "function" }],
        edges := [], file_path := "x.py", functions := none }).1
      { name := "g", safe_name := "g", has_conditions := false,
        node_id := "node_1", calls := [] }
      (by simp [extract_function_info, strContainsSub, strReplace, replaceAux,
        pyStrip, pyWhitespace, make_safe_id, is_node_in_function,
        extract_function_calls_for_function, pySetDedup, pySetDedupAux,
        is_builtin_function, pyToLower])
  · rw [((c8_logic_nodes_are_global
      { nodes := [], edges := [], file_path := "", functions := none }).2
      { name := "g", safe_name := "g", has_conditions := false,
        node_id := "node_1", calls := [] }).1 rfl]
    decide

/-- **C5.** For every source text that fails to parse (Python is the only
grammar-backed parser; the C++/TypeScript line scanners never raise), when
the text is supplied to `analyze_code` it returns the dict containing only
the `'error'` string `"Parsing error: Python syntax error: ..."` - in
particular no `flow_data`/`mermaid_code`/`detailed_mermaid` field is
present; `analyze_directory` returns exactly one result entry per walked
file with a supported extension, the batch is the concatenation of the
batches of any split of the file list (so one file's outcome cannot
disturb another's), and every supported walked file contributes the entry
`analyze_code` computes for it, tagged with its path.  Because the
orchestrator is a total function into result dicts, no exception crosses
the batch boundary. -/
theorem c5_error_isolation :
    (∀ (readFile : String → Except String SourceText) (file_path text msg : String),
      (detect_language file_path = some "python" ∨ detect_language file_path = none) →
      analyze_code readFile file_path (some { text := text, pyOutcome := .syntaxError msg }) =
        { error := some ("Parsing error: Python syntax error: " ++ msg) }) ∧
    (∀ (readFile : String → Except String SourceText) (walked_files : List String),
      (analyze_directory readFile walked_files).length =
        (walked_files.filter fun file =>
          supported_extensions.any fun ext => pyEndsWith file ext).length) ∧
    (∀ (readFile : String → Except String SourceText) (files1 files2 : List String),
      analyze_directory readFile (files1 ++ files2) =
        analyze_directory readFile files1 ++ analyze_directory readFile files2) ∧
    (∀ (readFile : String → Except String SourceText) (walked_files : List String)
        (file_path : String),
      file_path ∈ walked_files →
      (supported_extensions.any fun ext => pyEndsWith file_path ext) = true →
      { analyze_code readFile file_path none with file_path := some file_path }
        ∈ analyze_directory readFile walked_files) := by
  refine ⟨?_, ?_, ?_, ?_⟩
  · intro readFile file_path text msg hdet
    rcases hdet with hdet | hdet <;>
      simp [analyze_code, dispatch_parse, hdet, ← String.append_assoc]
  · intro readFile walked_files
    simp [analyze_directory]
  · intro readFile files1 files2
    simp [analyze_directory]
  · intro readFile walked_files file_path hmem hsupp
    exact List.mem_map_of_mem _ (List.mem_filter.mpr ⟨hmem, hsupp⟩)

/-- **C5 witness.** The error-entry equation applied to a concrete
unparseable Python text, and the per-file-entry fact applied to a concrete
two-file batch (one erroring Python file, one C++ file), with the batch
length evaluated. -/
theorem c5_error_isolation_witness :
    (analyze_code (fun _ => Except.error "io")
        "t.py" (some { text := "x", pyOutcome := .syntaxError "bad" }) =
      { error := some ("Parsing error: Python syntax error: " ++ "bad") }) ∧
    ({ analyze_code (fun p =>
          if p = "t.py" then Except.ok { text := "(", pyOutcome := .syntaxError "bad" }
          else Except.ok { text := "int f() {}", pyOutcome := .parsed [] })
        "t.py" none with file_path := some "t.py" }
      ∈ analyze_directory (fun p =>
          if p = "t.py" then Except.ok { text := "(", pyOutcome := .syntaxError "bad" }
          else Except.ok { text := "int f() {}", pyOutcome := .parsed [] })
        ["t.py", "b.cpp", "notes.txt"]) ∧
    (analyze_directory (fun p =>
          if p = "t.py" then Except.ok { text := "(", pyOutcome := .syntaxError "bad" }
          else Except.ok { text := "int f() {}", pyOutcome := .parsed [] })
        ["t.py", "b.cpp", "notes.txt"]).length = 2 := by
  refine ⟨?_, ?_, ?_⟩
  · exact c5_error_isolation.1 (fun _ => Except.error "io") "t.py" "x" "bad"
      (Or.inl (by decide))
  · exact c5_error_isolation.2.2.2 _ ["t.py", "b.cpp", "notes.txt"] "t.py"
      (by decide) (by decide)
  · rw [c5_error_isolation.2.1]
    decide

/-! ### Node-id freshness

`create_node` assigns the ids `node_0`, `node_1`, ... in counter order.
The start node is always `node_0` (the counter is reset to 0 by `parse`
and the start node is created first), and every edge ever appended targets
a node allocated while the counter was at least 1, so nothing can point
back at the start node.  That argument needs one arithmetic fact about
decimal rendering: `Nat.repr k ≠ "0"` for positive `k`. -/

theorem toDigitsCore_length_ge (b : Nat) (f : Nat) :
    ∀ (n : Nat) (l : List Char), l.length ≤ (Nat.toDigitsCore b f n l).length := by
  induction f with
  | zero => intro n l; simp [Nat.toDigitsCore]
  | succ f ih =>
    intro n l
    simp only [Nat.toDigitsCore]
    split
    · simp
    · calc l.length ≤ (Nat.digitChar (n % b) :: l).length := by simp
        _ ≤ _ := ih _ _

theorem toDigitsCore_length_succ (b f n : Nat) (l : List Char) :
    l.length + 1 ≤ (Nat.toDigitsCore b (f + 1) n l).length := by
  simp only [Nat.toDigitsCore]
  split
  · simp
  · have h := toDigitsCore_length_ge b f (n / b) (Nat.digitChar (n % b) :: l)
    simpa using h

theorem repr_length_ge_two (n : Nat) (h : 10 ≤ n) : 2 ≤ (Nat.repr n).length := by
  obtain ⟨m, rfl⟩ : ∃ m, n = m + 1 := ⟨n - 1, by omega⟩
  show 2 ≤ (Nat.toDigits 10 (m + 1)).asString.length
  have hstep : Nat.toDigits 10 (m + 1) =
      Nat.toDigitsCore 10 (m + 1) ((m + 1) / 10)
        [Nat.digitChar ((m + 1) % 10)] := by
    simp only [Nat.toDigits, Nat.toDigitsCore]
    rw [if_neg (by omega)]
  rw [hstep]
  have hlen : (List.asString (Nat.toDigitsCore 10 (m + 1) ((m + 1) / 10)
      [Nat.digitChar ((m + 1) % 10)])).length =
      (Nat.toDigitsCore 10 (m + 1) ((m + 1) / 10)
        [Nat.digitChar ((m + 1) % 10)]).length := rfl
  rw [hlen]
  have h2 := toDigitsCore_length_succ 10 m ((m + 1) / 10)
    [Nat.digitChar ((m + 1) % 10)]
  simpa using h2

theorem repr_ne_zero_str (k : Nat) (h : 1 ≤ k) : Nat.repr k ≠ "0" := by
  by_cases h10 : k < 10
  · interval_cases k <;> decide
  · intro heq
    have h2 := repr_length_ge_two k (by omega)
    rw [heq] at h2
    exact absurd h2 (by decide)

/-- The id `create_node` assigns at counter value `k`. -/
def mkNodeId (k : Nat) : String := "node_" ++ toString k

theorem mkNodeId_pos_ne_zero (k : Nat) (h : 1 ≤ k) : mkNodeId k ≠ mkNodeId 0 := by
  intro heq
  have hdata : ("node_" ++ toString k).data = ("node_" ++ toString 0).data :=
    congrArg String.data heq
  have hcancel : (toString k).data = (toString 0).data := by
    have h1 : ("node_" ++ toString k).data =
        "node_".data ++ (toString k).data := rfl
    have h2 : ("node_" ++ toString 0).data =
        "node_".data ++ (toString 0).data := rfl
    rw [h1, h2] at hdata
    exact List.append_cancel_left hdata
  have hstr : toString k = toString 0 := by
    cases hk : toString k with
    | mk d1 =>
      cases h0 : toString 0 with
      | mk d2 =>
        rw [hk, h0] at hcancel
        simp at hcancel
        rw [hcancel]
  exact repr_ne_zero_str k h (by simpa using hstr)

/-! ### Solid-edge reachability and the builder-step invariant -/

/-- One solid (non-dotted) edge step. -/
def solidStep (E : List Edge) (a b : String) : Prop :=
  ∃ e ∈ E, e.style ≠ some "dotted" ∧ e.fromId = a ∧ e.toId = b

/-- Reachability along solid edges. -/
def Reach (E : List Edge) (a b : String) : Prop :=
  Relation.ReflTransGen (solidStep E) a b

theorem Reach.refl' {E : List Edge} {a : String} : Reach E a a :=
  Relation.ReflTransGen.refl

theorem Reach_mono {E F : List Edge} (h : ∀ e ∈ E, e ∈ F) {a b : String} :
    Reach E a b → Reach F a b :=
  Relation.ReflTransGen.mono fun _ _ ⟨e, he, hs, hf, ht⟩ => ⟨e, h e he, hs, hf, ht⟩

theorem Reach_append {E : List Edge} (F : List Edge) {a b : String} :
    Reach E a b → Reach (E ++ F) a b :=
  Reach_mono fun _ he => List.mem_append_left F he

theorem Reach_of_edge {E : List Edge} {e : Edge} (he : e ∈ E)
    (hs : e.style ≠ some "dotted") : Reach E e.fromId e.toId :=
  Relation.ReflTransGen.single ⟨e, he, hs, rfl, rfl⟩

theorem Reach.trans' {E : List Edge} {a b c : String} :
    Reach E a b → Reach E b c → Reach E a c :=
  Relation.ReflTransGen.trans

/-- The invariant of one builder step seeded from cursor `parent`: the
node counter is monotone; nodes and edges only grow; no appended node has
kind `start` and each is reachable from `parent` along the final edges;
every appended edge targets a node id allocated during the step; and the
returned cursor is reachable from `parent`. -/
def StepOK (parent : String) (s : PState) (r : String × PState) : Prop :=
  s.node_counter ≤ r.2.node_counter ∧
  (∃ dn, r.2.nodes = s.nodes ++ dn ∧
    ∀ n ∈ dn, n.type ≠ "start" ∧ Reach r.2.edges parent n.id) ∧
  (∃ de, r.2.edges = s.edges ++ de ∧
    ∀ e ∈ de, ∃ k, s.node_counter ≤ k ∧ k < r.2.node_counter ∧
      e.toId = mkNodeId k) ∧
  Reach r.2.edges parent r.1

theorem StepOK_refl (p : String) (s : PState) : StepOK p s (p, s) :=
  ⟨Nat.le_refl _,
   ⟨[], (List.append_nil _).symm, fun n hn => absurd hn (List.not_mem_nil n)⟩,
   ⟨[], (List.append_nil _).symm, fun e he => absurd he (List.not_mem_nil e)⟩,
   Reach.refl'⟩

theorem StepOK.trans {p : String} {s : PState} {r1 r2 : String × PState}
    (h1 : StepOK p s r1) (h2 : StepOK r1.1 r1.2 r2) :
    StepOK p s r2 := by
  obtain ⟨hc1, ⟨dn1, hn1, hdn1⟩, ⟨de1, he1, hde1⟩, hr1⟩ := h1
  obtain ⟨hc2, ⟨dn2, hn2, hdn2⟩, ⟨de2, he2, hde2⟩, hr2⟩ := h2
  have hedges : r2.2.edges = s.edges ++ (de1 ++ de2) := by
    rw [he2, he1, List.append_assoc]
  refine ⟨Nat.le_trans hc1 hc2,
    ⟨dn1 ++ dn2, by rw [hn2, hn1, List.append_assoc], ?_⟩,
    ⟨de1 ++ de2, hedges, ?_⟩, ?_⟩
  · intro n hn
    rcases List.mem_append.mp hn with hn | hn
    · obtain ⟨ht, hre⟩ := hdn1 n hn
      exact ⟨ht, by rw [he2]; exact Reach_append de2 hre⟩
    · obtain ⟨ht, hre⟩ := hdn2 n hn
      refine ⟨ht, Reach.trans' ?_ hre⟩
      rw [he2]
      exact Reach_append de2 hr1
  · intro e he
    rcases List.mem_append.mp he with he | he
    · obtain ⟨k, hk1, hk2, hk3⟩ := hde1 e he
      exact ⟨k, hk1, Nat.lt_of_lt_of_le hk2 hc2, hk3⟩
    · obtain ⟨k, hk1, hk2, hk3⟩ := hde2 e he
      exact ⟨k, Nat.le_trans hc1 hk1, hk2, hk3⟩
  · refine Reach.trans' ?_ hr2
    rw [he2]
    exact Reach_append de2 hr1

/-- `create_node` with a parent builds a well-formed step: one new
non-start node, one new edge from the parent into it, cursor on it. -/
theorem create_node_StepOK (label ty : String) (hty : ty ≠ "start")
    (p : String) (s : PState) :
    StepOK p s (create_node label ty (some p) s) := by
  refine ⟨by simp [create_node],
    ⟨[{ id := mkNodeId s.node_counter, label := label, type := ty }],
      by simp [create_node, mkNodeId], ?_⟩,
    ⟨[{ fromId := p, toId := mkNodeId s.node_counter }],
      by simp [create_node, mkNodeId], ?_⟩, ?_⟩
  · intro n hn
    rcases List.mem_singleton.mp hn with rfl
    refine ⟨hty, ?_⟩
    have hmem : ({ fromId := p, toId := mkNodeId s.node_counter } : Edge) ∈
        (create_node label ty (some p) s).2.edges := by
      simp [create_node, mkNodeId]
    exact Reach_of_edge hmem (by simp)
  · intro e he
    rcases List.mem_singleton.mp he with rfl
    exact ⟨s.node_counter, Nat.le_refl _, by simp [create_node], rfl⟩
  · have hmem : ({ fromId := p, toId := mkNodeId s.node_counter } : Edge) ∈
        (create_node label ty (some p) s).2.edges := by
      simp [create_node, mkNodeId]
    have h := Reach_of_edge hmem (by simp)
    simpa [create_node, mkNodeId] using h

/-- Appending an edge that targets a node allocated during the step
preserves the step invariant. -/
theorem StepOK.then_addEdge {p : String} {s : PState} {r : String × PState}
    (h : StepOK p s r) (e : Edge)
    (hk : ∃ k, s.node_counter ≤ k ∧ k < r.2.node_counter ∧ e.toId = mkNodeId k) :
    StepOK p s (r.1, addEdge r.2 e) := by
  obtain ⟨hc, ⟨dn, hn, hdn⟩, ⟨de, he, hde⟩, hr⟩ := h
  have he' : r.2.edges = s.edges ++ de := he
  refine ⟨hc, ⟨dn, hn, ?_⟩,
    ⟨de ++ [e], by rw [show (addEdge r.2 e).edges = r.2.edges ++ [e] from rfl,
      he', List.append_assoc], ?_⟩, ?_⟩
  · intro n hnn
    obtain ⟨ht, hre⟩ := hdn n hnn
    exact ⟨ht, Reach_append [e] hre⟩
  · intro f hf
    rcases List.mem_append.mp hf with hf | hf
    · exact hde f hf
    · rcases List.mem_singleton.mp hf with rfl
      exact hk
  · exact Reach_append [e] hr

/-- Creating an orphan node and immediately wiring one edge into it from a
source `f` reachable from the step's seed extends the step, with the
cursor moving to the new node. -/
theorem StepOK.attach_node {p : String} {s : PState} {r : String × PState}
    (h : StepOK p s r) (label ty : String) (hty : ty ≠ "start")
    (f : String) (lbl : Option String) (hf : Reach r.2.edges p f) :
    StepOK p s ((create_node label ty none r.2).1,
      addEdge (create_node label ty none r.2).2
        { fromId := f, toId := (create_node label ty none r.2).1, label := lbl }) := by
  obtain ⟨hc, ⟨dn, hn, hdn⟩, ⟨de, he, hde⟩, _hr⟩ := h
  have hc' : s.node_counter ≤ r.2.node_counter := hc
  have hn' : r.2.nodes = s.nodes ++ dn := hn
  have he' : r.2.edges = s.edges ++ de := he
  have hdn' : ∀ n ∈ dn, n.type ≠ "start" ∧ Reach r.2.edges p n.id := hdn
  have hde' : ∀ e ∈ de, ∃ k, s.node_counter ≤ k ∧ k < r.2.node_counter ∧
      e.toId = mkNodeId k := hde
  have hid : (create_node label ty none r.2).1 = mkNodeId r.2.node_counter := rfl
  have hedges : (addEdge (create_node label ty none r.2).2
      { fromId := f, toId := (create_node label ty none r.2).1, label := lbl }).edges =
      r.2.edges ++ [{ fromId := f, toId := mkNodeId r.2.node_counter, label := lbl }] := by
    simp [create_node, addEdge, mkNodeId]
  have hcount : (addEdge (create_node label ty none r.2).2
      { fromId := f, toId := (create_node label ty none r.2).1, label := lbl }).node_counter =
      r.2.node_counter + 1 := rfl
  have hnodes : (addEdge (create_node label ty none r.2).2
      { fromId := f, toId := (create_node label ty none r.2).1, label := lbl }).nodes =
      s.nodes ++ (dn ++ [{ id := mkNodeId r.2.node_counter, label := label, type := ty }]) := by
    show r.2.nodes ++ [{ id := mkNodeId r.2.node_counter, label := label, type := ty }] =
      s.nodes ++ (dn ++ [{ id := mkNodeId r.2.node_counter, label := label, type := ty }])
    rw [hn', List.append_assoc]
  have hreach_new : Reach (addEdge (create_node label ty none r.2).2
      { fromId := f, toId := (create_node label ty none r.2).1, label := lbl }).edges
      p (mkNodeId r.2.node_counter) := by
    rw [hedges]
    refine Reach.trans' (Reach_append _ hf) ?_
    exact Reach_of_edge (e := { fromId := f, toId := mkNodeId r.2.node_counter, label := lbl })
      (by simp) (by simp)
  refine ⟨by rw [hcount]; omega,
    ⟨dn ++ [{ id := mkNodeId r.2.node_counter, label := label, type := ty }],
      hnodes, ?_⟩,
    ⟨de ++ [{ fromId := f, toId := mkNodeId r.2.node_counter, label := lbl }],
      by rw [hedges, he', List.append_assoc], ?_⟩, ?_⟩
  · intro n hnn
    rcases List.mem_append.mp hnn with hnn | hnn
    · obtain ⟨ht, hre⟩ := hdn' n hnn
      refine ⟨ht, ?_⟩
      rw [hedges]
      exact Reach_append _ hre
    · rcases List.mem_singleton.mp hnn with rfl
      exact ⟨hty, hreach_new⟩
  · intro e hee
    rcases List.mem_append.mp hee with hee | hee
    · obtain ⟨k, hk1, hk2, hk3⟩ := hde' e hee
      exact ⟨k, hk1, by rw [hcount]; omega, hk3⟩
    · rcases List.mem_singleton.mp hee with rfl
      exact ⟨r.2.node_counter, hc', by rw [hcount]; omega, rfl⟩
  · rw [hid]
    exact hreach_new

theorem process_return_StepOK (v : Option Expr) (p : String) (s : PState) :
    StepOK p s (process_return_statement v p s) := by
  cases v <;> exact create_node_StepOK _ "end" (by decide) p s

theorem process_assignment_StepOK (tg : List Expr) (v : Expr) (p : String)
    (s : PState) : StepOK p s (process_assignment tg v p s) := by
  simp only [process_assignment]
  split
  · split
    · exact create_node_StepOK _ "function" (by decide) p s
    · split
      · exact create_node_StepOK _ "process" (by decide) p s
      · exact StepOK_refl p s
  · exact StepOK_refl p s

mutual
theorem process_statement_StepOK (stmt : Stmt) (p : String) (s : PState) :
    StepOK p s (process_statement stmt p s) := by
  cases stmt with
  | functionDef nm b => simp only [process_statement]; exact StepOK_refl p s
  | ifStmt t b o =>
    simp only [process_statement]; exact process_if_StepOK t b o p s
  | forStmt tg it b =>
    simp only [process_statement]; exact process_for_StepOK tg it b p s
  | whileStmt t b =>
    simp only [process_statement]; exact process_while_StepOK t b p s
  | tryStmt b hs =>
    simp only [process_statement]; exact process_try_StepOK b hs p s
  | returnStmt v =>
    simp only [process_statement]; exact process_return_StepOK v p s
  | exprStmt v => simp only [process_statement]; exact StepOK_refl p s
  | assign tg v =>
    simp only [process_statement]; exact process_assignment_StepOK tg v p s
  | otherStmt => simp only [process_statement]; exact StepOK_refl p s
termination_by (sizeOf stmt, 2)

theorem process_block_StepOK (stmts : List Stmt) (c : String) (s : PState) :
    StepOK c s (process_block stmts c s) := by
  cases stmts with
  | nil => simp only [process_block]; exact StepOK_refl c s
  | cons stmt rest =>
    simp only [process_block]
    exact (process_statement_StepOK stmt c s).trans
      (process_block_StepOK rest (process_statement stmt c s).1
        (process_statement stmt c s).2)
termination_by (sizeOf stmts, 2)

theorem process_handlers_StepOK (handlers : List (List Stmt)) (c : String)
    (s : PState) : StepOK c s (process_handlers handlers c s) := by
  cases handlers with
  | nil => simp only [process_handlers]; exact StepOK_refl c s
  | cons h rest =>
    simp only [process_handlers]
    exact (process_block_StepOK h c s).trans
      (process_handlers_StepOK rest (process_block h c s).1
        (process_block h c s).2)
termination_by (sizeOf handlers, 2)

theorem process_if_StepOK (test : Expr) (body orelse : List Stmt) (p : String)
    (s : PState) : StepOK p s (process_if_statement test body orelse p s) := by
  simp only [process_if_statement]
  generalize hr0 : create_node ("If: " ++ get_condition_text test) "condition"
    (some p) s = r0
  have h0 : StepOK p s r0 := hr0 ▸ create_node_StepOK _ _ (by decide) p s
  have h0r : Reach r0.2.edges p r0.1 := h0.2.2.2
  have hr0id : r0.1 = mkNodeId s.node_counter := by rw [← hr0]; rfl
  have hr0c : r0.2.node_counter = s.node_counter + 1 := by rw [← hr0]; rfl
  generalize hr1 : create_node "If True" "process" none r0.2 = r1
  have hr1e : r1.2.edges = r0.2.edges := by rw [← hr1]; rfl
  have hr1c : r1.2.node_counter = r0.2.node_counter + 1 := by rw [← hr1]; rfl
  have h1 : StepOK p s (r1.1,
      addEdge r1.2 { fromId := r0.1, toId := r1.1, label := some "Yes" }) := by
    rw [← hr1]
    exact h0.attach_node _ _ (by decide) r0.1 (some "Yes") h0r
  generalize hs1 : addEdge r1.2
    { fromId := r0.1, toId := r1.1, label := some "Yes" } = s1 at h1 ⊢
  have hs1e : s1.edges = r1.2.edges ++
      [{ fromId := r0.1, toId := r1.1, label := some "Yes" }] := by rw [← hs1]; rfl
  have hs1c : s1.node_counter = r1.2.node_counter := by rw [← hs1]; rfl
  have hb := process_block_StepOK body r1.1 s1
  generalize hrb : process_block body r1.1 s1 = rb at hb ⊢
  have h2 : StepOK p s rb := h1.trans hb
  have hcb : s1.node_counter ≤ rb.2.node_counter := hb.1
  obtain ⟨_, _, ⟨deB, heB, _⟩, _⟩ := hb
  have hreach0 : Reach rb.2.edges p r0.1 := by
    rw [heB, hs1e, hr1e]
    exact Reach_append _ (Reach_append _ h0r)
  cases orelse with
  | nil =>
    simp only [List.isEmpty_nil, if_true]
    have h3 := h2.attach_node "Continue" "process" (by decide) rb.1 none h2.2.2.2
    refine h3.then_addEdge _ ⟨rb.2.node_counter, ?_, ?_, rfl⟩
    · omega
    · exact Nat.lt_succ_self _
  | cons o1 orest =>
    simp only [List.isEmpty_cons, if_false]
    have h3 : StepOK p s ((create_node "If False" "process" none rb.2).1,
        addEdge (create_node "If False" "process" none rb.2).2
          { fromId := r0.1, toId := (create_node "If False" "process" none rb.2).1,
            label := some "No" }) :=
      h2.attach_node "If False" "process" (by decide) r0.1 (some "No") hreach0
    generalize hr3 : create_node "If False" "process" none rb.2 = r3 at h3 ⊢
    have hr3e : r3.2.edges = rb.2.edges := by rw [← hr3]; rfl
    generalize hs3 : addEdge r3.2
      { fromId := r0.1, toId := r3.1, label := some "No" } = s3 at h3 ⊢
    have hs3e : s3.edges = r3.2.edges ++
        [{ fromId := r0.1, toId := r3.1, label := some "No" }] := by rw [← hs3]; rfl
    have hbe := process_block_StepOK (o1 :: orest) r3.1 s3
    generalize hre : process_block (o1 :: orest) r3.1 s3 = re at hbe ⊢
    have h4 : StepOK p s re := h3.trans hbe
    obtain ⟨_, _, ⟨deE, heE, _⟩, _⟩ := hbe
    have hreach_tail : Reach re.2.edges p rb.1 := by
      rw [heE, hs3e, hr3e]
      exact Reach_append _ (Reach_append _ h2.2.2.2)
    have h5 := h4.attach_node "Continue" "process" (by decide) rb.1 none hreach_tail
    refine h5.then_addEdge _ ⟨re.2.node_counter, h4.1, Nat.lt_succ_self _, rfl⟩
termination_by (1 + sizeOf test + sizeOf body + sizeOf orelse, 1)

theorem process_for_StepOK (target iter : Expr) (body : List Stmt) (p : String)
    (s : PState) : StepOK p s (process_for_loop target iter body p s) := by
  simp only [process_for_loop]
  generalize hr0 : create_node ("For " ++ unparse target ++ " in " ++ unparse iter)
    "condition" (some p) s = r0
  have h0 : StepOK p s r0 := hr0 ▸ create_node_StepOK _ _ (by decide) p s
  have h0r : Reach r0.2.edges p r0.1 := h0.2.2.2
  have hr0id : r0.1 = mkNodeId s.node_counter := by rw [← hr0]; rfl
  have hr0c : r0.2.node_counter = s.node_counter + 1 := by rw [← hr0]; rfl
  generalize hr1 : create_node "Loop Body" "process" none r0.2 = r1
  have hr1e : r1.2.edges = r0.2.edges := by rw [← hr1]; rfl
  have hr1c : r1.2.node_counter = r0.2.node_counter + 1 := by rw [← hr1]; rfl
  have h1 : StepOK p s (r1.1,
      addEdge r1.2 { fromId := r0.1, toId := r1.1, label := some "Each Item" }) := by
    rw [← hr1]
    exact h0.attach_node _ _ (by decide) r0.1 (some "Each Item") h0r
  generalize hs1 : addEdge r1.2
    { fromId := r0.1, toId := r1.1, label := some "Each Item" } = s1 at h1 ⊢
  have hs1e : s1.edges = r1.2.edges ++
      [{ fromId := r0.1, toId := r1.1, label := some "Each Item" }] := by
    rw [← hs1]; rfl
  have hs1c : s1.node_counter = r1.2.node_counter := by rw [← hs1]; rfl
  have hb := process_block_StepOK body r1.1 s1
  generalize hrb : process_block body r1.1 s1 = rb at hb ⊢
  have h2 : StepOK p s rb := h1.trans hb
  have hcb : s1.node_counter ≤ rb.2.node_counter := hb.1
  obtain ⟨_, _, ⟨deB, heB, _⟩, _⟩ := hb
  have hreach0 : Reach rb.2.edges p r0.1 := by
    rw [heB, hs1e, hr1e]
    exact Reach_append _ (Reach_append _ h0r)
  have h3 : StepOK p s (rb.1,
      addEdge rb.2 { fromId := rb.1, toId := r0.1, label := some "Next" }) :=
    h2.then_addEdge _ ⟨s.node_counter, Nat.le_refl _, by omega, hr0id.symm ▸ rfl⟩
  generalize hs2 : addEdge rb.2
    { fromId := rb.1, toId := r0.1, label := some "Next" } = s2 at h3 ⊢
  have hs2e : s2.edges = rb.2.edges ++
      [{ fromId := rb.1, toId := r0.1, label := some "Next" }] := by rw [← hs2]; rfl
  have hreach0' : Reach s2.edges p r0.1 := by
    rw [hs2e]
    exact Reach_append _ hreach0
  exact h3.attach_node "Loop Complete" "process" (by decide) r0.1 (some "Done") hreach0'
termination_by (1 + sizeOf target + sizeOf iter + sizeOf body, 1)

theorem process_while_StepOK (test : Expr) (body : List Stmt) (p : String)
    (s : PState) : StepOK p s (process_while_loop test body p s) := by
  simp only [process_while_loop]
  generalize hr0 : create_node ("While: " ++ get_condition_text test)
    "condition" (some p) s = r0
  have h0 : StepOK p s r0 := hr0 ▸ create_node_StepOK _ _ (by decide) p s
  have h0r : Reach r0.2.edges p r0.1 := h0.2.2.2
  have hr0id : r0.1 = mkNodeId s.node_counter := by rw [← hr0]; rfl
  have hr0c : r0.2.node_counter = s.node_counter + 1 := by rw [← hr0]; rfl
  generalize hr1 : create_node "Loop Body" "process" none r0.2 = r1
  have hr1e : r1.2.edges = r0.2.edges := by rw [← hr1]; rfl
  have hr1c : r1.2.node_counter = r0.2.node_counter + 1 := by rw [← hr1]; rfl
  have h1 : StepOK p s (r1.1,
      addEdge r1.2 { fromId := r0.1, toId := r1.1, label := some "True" }) := by
    rw [← hr1]
    exact h0.attach_node _ _ (by decide) r0.1 (some "True") h0r
  generalize hs1 : addEdge r1.2
    { fromId := r0.1, toId := r1.1, label := some "True" } = s1 at h1 ⊢
  have hs1e : s1.edges = r1.2.edges ++
      [{ fromId := r0.1, toId := r1.1, label := some "True" }] := by rw [← hs1]; rfl
  have hs1c : s1.node_counter = r1.2.node_counter := by rw [← hs1]; rfl
  have hb := process_block_StepOK body r1.1 s1
  generalize hrb : process_block body r1.1 s1 = rb at hb ⊢
  have h2 : StepOK p s rb := h1.trans hb
  have hcb : s1.node_counter ≤ rb.2.node_counter := hb.1
  obtain ⟨_, _, ⟨deB, heB, _⟩, _⟩ := hb
  have hreach0 : Reach rb.2.edges p r0.1 := by
    rw [heB, hs1e, hr1e]
    exact Reach_append _ (Reach_append _ h0r)
  have h3 : StepOK p s (rb.1,
      addEdge rb.2 { fromId := rb.1, toId := r0.1 }) :=
    h2.then_addEdge _ ⟨s.node_counter, Nat.le_refl _, by omega, hr0id.symm ▸ rfl⟩
  generalize hs2 : addEdge rb.2
    { fromId := rb.1, toId := r0.1 } = s2 at h3 ⊢
  have hs2e : s2.edges = rb.2.edges ++
      [{ fromId := rb.1, toId := r0.1 }] := by rw [← hs2]; rfl
  have hreach0' : Reach s2.edges p r0.1 := by
    rw [hs2e]
    exact Reach_append _ hreach0
  exact h3.attach_node "Loop Exit" "process" (by decide) r0.1 (some "False") hreach0'
termination_by (1 + sizeOf test + sizeOf body, 1)

theorem process_try_StepOK (body : List Stmt) (handlers : List (List Stmt))
    (p : String) (s : PState) :
    StepOK p s (process_try_statement body handlers p s) := by
  simp only [process_try_statement]
  generalize hr0 : create_node "Try Block" "process" (some p) s = r0
  have h0 : StepOK p s r0 := hr0 ▸ create_node_StepOK _ _ (by decide) p s
  have h0r : Reach r0.2.edges p r0.1 := h0.2.2.2
  have hb := process_block_StepOK body r0.1 r0.2
  generalize hrb : process_block body r0.1 r0.2 = rb at hb ⊢
  have h2 : StepOK p s rb := h0.trans hb
  obtain ⟨_, _, ⟨deB, heB, _⟩, _⟩ := hb
  cases handlers with
  | nil =>
    simp only [List.isEmpty_nil, if_true]
    exact h2
  | cons hd hrest =>
    simp only [List.isEmpty_cons, if_false]
    have hreach0 : Reach rb.2.edges p r0.1 := by
      rw [heB]
      exact Reach_append _ h0r
    have h3 : StepOK p s ((create_node "Exception Handler" "process" none rb.2).1,
        addEdge (create_node "Exception Handler" "process" none rb.2).2
          { fromId := r0.1,
            toId := (create_node "Exception Handler" "process" none rb.2).1,
            label := some "Error" }) :=
      h2.attach_node "Exception Handler" "process" (by decide) r0.1
        (some "Error") hreach0
    generalize hr2 : create_node "Exception Handler" "process" none rb.2 = r2 at h3 ⊢
    have hr2e : r2.2.edges = rb.2.edges := by rw [← hr2]; rfl
    generalize hs2 : addEdge r2.2
      { fromId := r0.1, toId := r2.1, label := some "Error" } = s2 at h3 ⊢
    have hs2e : s2.edges = r2.2.edges ++
        [{ fromId := r0.1, toId := r2.1, label := some "Error" }] := by
      rw [← hs2]; rfl
    have hh := process_handlers_StepOK (hd :: hrest) r2.1 s2
    generalize hrh : process_handlers (hd :: hrest) r2.1 s2 = rh at hh ⊢
    have h4 : StepOK p s rh := h3.trans hh
    obtain ⟨_, _, ⟨deH, heH, _⟩, _⟩ := hh
    have hreach_tail : Reach rh.2.edges p rb.1 := by
      rw [heH, hs2e, hr2e]
      exact Reach_append _ (Reach_append _ h2.2.2.2)
    have h5 := h4.attach_node "Continue" "process" (by decide) rb.1 none hreach_tail
    refine h5.then_addEdge _ ⟨rh.2.node_counter, h4.1, Nat.lt_succ_self _, rfl⟩
termination_by (1 + sizeOf body + sizeOf handlers, 1)
end

/-! ### C1: start-node uniqueness and rooted reachability of the built graph -/

/-- A root of the solid-edge graph: the start node, or one of the
function-definition nodes that the `for func in functions:` loop of
`create_function_flows` creates with no parent (type `"function"`,
label `"Function: <name>"`). -/
def IsRootNode (n : Node) : Prop :=
  n.type = "start" ∨ (n.type = "function" ∧ ∃ name, n.label = "Function: " ++ name)

/-- `x` is reachable along solid edges from some root node of `s`. -/
def Rooted (s : PState) (x : String) : Prop :=
  ∃ r ∈ s.nodes, IsRootNode r ∧ Reach s.edges r.id x

theorem Rooted_extend {s s' : PState} (hn : ∃ dn, s'.nodes = s.nodes ++ dn)
    (he : ∃ de, s'.edges = s.edges ++ de) {x : String} :
    Rooted s x → Rooted s' x := by
  rintro ⟨r, hr, hroot, hreach⟩
  obtain ⟨dn, hn⟩ := hn
  obtain ⟨de, he⟩ := he
  exact ⟨r, by rw [hn]; exact List.mem_append_left dn hr, hroot,
    by rw [he]; exact Reach_append de hreach⟩

/-- Invariant of the builder state during top-level construction: the
counter is positive, exactly one `start`-kind node exists and its id is
`node_0`, every node is solid-reachable from a root node, and every edge
targets an id allocated after the start node. -/
def GInv (s : PState) : Prop :=
  1 ≤ s.node_counter ∧
  (s.nodes.filter (fun n => n.type == "start")).length = 1 ∧
  (∀ n ∈ s.nodes, n.type = "start" → n.id = mkNodeId 0) ∧
  (∀ n ∈ s.nodes, Rooted s n.id) ∧
  (∀ e ∈ s.edges, ∃ k, 1 ≤ k ∧ k < s.node_counter ∧ e.toId = mkNodeId k)

/-- A builder step from a rooted cursor preserves the top-level
invariant, and the returned cursor is again rooted. -/
theorem GInv_step {s : PState} {p : String} {r : String × PState}
    (hg : GInv s) (hp : Rooted s p) (h : StepOK p s r) :
    GInv r.2 ∧ Rooted r.2 r.1 := by
  obtain ⟨hc1, hstart, hsid, hroot, hedge⟩ := hg
  obtain ⟨hc, ⟨dn, hn, hdn⟩, ⟨de, he, hde⟩, hr⟩ := h
  have hp' : Rooted r.2 p := Rooted_extend ⟨dn, hn⟩ ⟨de, he⟩ hp
  obtain ⟨rt, hrt, hrta, hrtb⟩ := hp'
  have hrootcur : Rooted r.2 r.1 := ⟨rt, hrt, hrta, hrtb.trans' hr⟩
  refine ⟨⟨Nat.le_trans hc1 hc, ?_, ?_, ?_, ?_⟩, hrootcur⟩
  · rw [hn, List.filter_append]
    have hnil : dn.filter (fun n => n.type == "start") = [] := by
      rw [List.filter_eq_nil_iff]
      intro n hnn
      have := (hdn n hnn).1
      simpa using this
    rw [hnil, List.append_nil]
    exact hstart
  · intro n hnn hty
    rw [hn] at hnn
    rcases List.mem_append.mp hnn with hnn | hnn
    · exact hsid n hnn hty
    · exact absurd hty (hdn n hnn).1
  · intro n hnn
    rw [hn] at hnn
    rcases List.mem_append.mp hnn with hnn | hnn
    · exact Rooted_extend ⟨dn, hn⟩ ⟨de, he⟩ (hroot n hnn)
    · exact ⟨rt, hrt, hrta, hrtb.trans' (hdn n hnn).2⟩
  · intro e hee
    rw [he] at hee
    rcases List.mem_append.mp hee with hee | hee
    · obtain ⟨k, hk1, hk2, hk3⟩ := hedge e hee
      exact ⟨k, hk1, Nat.lt_of_lt_of_le hk2 hc, hk3⟩
    · obtain ⟨k, hk1, hk2, hk3⟩ := hde e hee
      exact ⟨k, Nat.le_trans hc1 hk1, hk2, hk3⟩

/-- Appending one edge that targets a post-start id preserves the
top-level invariant. -/
theorem GInv_addEdge {s : PState} (hg : GInv s) (e : Edge)
    (hk : ∃ k, 1 ≤ k ∧ k < s.node_counter ∧ e.toId = mkNodeId k) :
    GInv (addEdge s e) := by
  obtain ⟨hc, hstart, hsid, hroot, hedge⟩ := hg
  refine ⟨hc, hstart, hsid, ?_, ?_⟩
  · intro n hn
    exact @Rooted_extend s (addEdge s e) ⟨[], (List.append_nil _).symm⟩
      ⟨[e], rfl⟩ n.id (hroot n hn)
  · intro f hf
    rcases List.mem_append.mp hf with hf | hf
    · exact hedge f hf
    · rcases List.mem_singleton.mp hf with rfl
      exact hk

/-- Creating the orphan `"Function: <name>"` node of the functions loop
preserves the invariant; the new node is itself a root, so the cursor it
returns is rooted. -/
theorem GInv_add_root (name : String) {s : PState} (hg : GInv s) :
    GInv (create_node ("Function: " ++ name) "function" none s).2 ∧
    Rooted (create_node ("Function: " ++ name) "function" none s).2
      (create_node ("Function: " ++ name) "function" none s).1 := by
  obtain ⟨hc, hstart, hsid, hroot, hedge⟩ := hg
  have hn : (create_node ("Function: " ++ name) "function" none s).2.nodes =
      s.nodes ++ [{ id := mkNodeId s.node_counter, label := "Function: " ++ name, type := "function" }] := rfl
  have he : (create_node ("Function: " ++ name) "function" none s).2.edges =
      s.edges := rfl
  have hcnt : (create_node ("Function: " ++ name) "function" none s).2.node_counter =
      s.node_counter + 1 := rfl
  have hrootN : IsRootNode { id := mkNodeId s.node_counter, label := "Function: " ++ name, type := "function" } :=
    Or.inr ⟨rfl, name, rfl⟩
  have hmemN : ({ id := mkNodeId s.node_counter, label := "Function: " ++ name, type := "function" } : Node) ∈
      (create_node ("Function: " ++ name) "function" none s).2.nodes := by
    rw [hn]
    exact List.mem_append_right _ (List.mem_singleton.mpr rfl)
  constructor
  · refine ⟨by rw [hcnt]; omega, ?_, ?_, ?_, ?_⟩
    · rw [hn, List.filter_append]
      have hnil : List.filter (fun (n : Node) => n.type == "start")
          [{ id := mkNodeId s.node_counter, label := "Function: " ++ name, type := "function" }] = [] := rfl
      rw [hnil, List.append_nil]
      exact hstart
    · intro n hnn hty
      rw [hn] at hnn
      rcases List.mem_append.mp hnn with hnn | hnn
      · exact hsid n hnn hty
      · rcases List.mem_singleton.mp hnn with rfl
        have hty' : ("function" : String) = "start" := hty
        exact absurd hty' (by decide)
    · intro n hnn
      rw [hn] at hnn
      rcases List.mem_append.mp hnn with hnn | hnn
      · exact Rooted_extend ⟨_, hn⟩
          ⟨[], by rw [he, List.append_nil]⟩ (hroot n hnn)
      · rcases List.mem_singleton.mp hnn with rfl
        exact ⟨_, hmemN, hrootN, Reach.refl'⟩
    · intro e hee
      rw [he] at hee
      obtain ⟨k, hk1, hk2, hk3⟩ := hedge e hee
      exact ⟨k, hk1, by rw [hcnt]; omega, hk3⟩
  · exact ⟨_, hmemN, hrootN, Reach.refl'⟩

/-- After creating the start node from the fresh builder state the
invariant holds, and the cursor (the start node itself) is rooted. -/
theorem GInv_after_start (label : String) :
    GInv (create_node label "start" none
      { node_counter := 0, nodes := [], edges := [] }).2 ∧
    Rooted (create_node label "start" none
        { node_counter := 0, nodes := [], edges := [] }).2
      (create_node label "start" none
        { node_counter := 0, nodes := [], edges := [] }).1 := by
  have hrootN : IsRootNode { id := mkNodeId 0, label := label, type := "start" } :=
    Or.inl rfl
  have hmemN : ({ id := mkNodeId 0, label := label, type := "start" } : Node) ∈
      (create_node label "start" none
        { node_counter := 0, nodes := [], edges := [] }).2.nodes :=
    List.mem_singleton.mpr rfl
  constructor
  · refine ⟨Nat.le_refl 1, rfl, ?_, ?_, ?_⟩
    · intro n hnn _
      rcases List.mem_singleton.mp hnn with rfl
      rfl
    · intro n hnn
      rcases List.mem_singleton.mp hnn with rfl
      exact ⟨_, hmemN, hrootN, Reach.refl'⟩
    · intro e hee
      exact absurd hee (List.not_mem_nil e)
  · exact ⟨_, hmemN, hrootN, Reach.refl'⟩

/-- Unfolding one iteration of the functions loop. -/
theorem funcs_loop_cons (tree : List Stmt) (func : PyFunc) (rest : List PyFunc)
    (d : List (String × String)) (lm : String) (s : PState) :
    funcs_loop tree (func :: rest) d lm s =
      (if is_main_function_call tree func.name then
        funcs_loop tree rest
          (d ++ [(func.name,
            (create_node ("Function: " ++ func.name) "function" none s).1)])
          (create_function_body_flow func.body
            (create_node ("Function: " ++ func.name) "function" none s).1
            (create_node ("Function: " ++ func.name) "function" none s).2).1
          (addEdge
            (create_function_body_flow func.body
              (create_node ("Function: " ++ func.name) "function" none s).1
              (create_node ("Function: " ++ func.name) "function" none s).2).2
            { fromId := lm,
              toId := (create_node ("Function: " ++ func.name) "function" none s).1 })
      else
        funcs_loop tree rest
          (d ++ [(func.name,
            (create_node ("Function: " ++ func.name) "function" none s).1)])
          lm
          (create_function_body_flow func.body
            (create_node ("Function: " ++ func.name) "function" none s).1
            (create_node ("Function: " ++ func.name) "function" none s).2).2) := rfl

/-- The functions loop preserves the top-level invariant and keeps the
threaded `last_main_id` cursor rooted. -/
theorem funcs_loop_GInv (tree : List Stmt) (funcs : List PyFunc) :
    ∀ (d : List (String × String)) (lm : String) (s : PState),
      GInv s → Rooted s lm →
      GInv (funcs_loop tree funcs d lm s).2.2 ∧
      Rooted (funcs_loop tree funcs d lm s).2.2
        (funcs_loop tree funcs d lm s).2.1 := by
  induction funcs with
  | nil =>
    intro d lm s hg hlm
    exact ⟨hg, hlm⟩
  | cons func rest ih =>
    intro d lm s hg hlm
    rw [funcs_loop_cons]
    have hg0 := GInv_add_root func.name hg
    generalize hr0 : create_node ("Function: " ++ func.name) "function" none s =
      r0 at hg0 ⊢
    obtain ⟨hg0', hroot0⟩ := hg0
    have hr0c : r0.2.node_counter = s.node_counter + 1 := by rw [← hr0]; rfl
    have hr0id : r0.1 = mkNodeId s.node_counter := by rw [← hr0]; rfl
    have hr0n : ∃ dn, r0.2.nodes = s.nodes ++ dn := ⟨_, by rw [← hr0]; rfl⟩
    have hr0e' : r0.2.edges = s.edges := by rw [← hr0]; rfl
    have hr0e : ∃ de, r0.2.edges = s.edges ++ de :=
      ⟨[], by rw [hr0e', List.append_nil]⟩
    have hlm0 : Rooted r0.2 lm := Rooted_extend hr0n hr0e hlm
    have hb : StepOK r0.1 r0.2 (create_function_body_flow func.body r0.1 r0.2) :=
      process_block_StepOK func.body r0.1 r0.2
    generalize hr1 : create_function_body_flow func.body r0.1 r0.2 = r1 at hb ⊢
    obtain ⟨hg1, hroot1⟩ := GInv_step hg0' hroot0 hb
    have hbc : r0.2.node_counter ≤ r1.2.node_counter := hb.1
    obtain ⟨_, ⟨dn1, hn1, _⟩, ⟨de1, he1, _⟩, _⟩ := hb
    have hlm1 : Rooted r1.2 lm := Rooted_extend ⟨dn1, hn1⟩ ⟨de1, he1⟩ hlm0
    by_cases hmain : is_main_function_call tree func.name = true
    · rw [if_pos hmain]
      have hkbound : s.node_counter < r1.2.node_counter := by omega
      have hgadd : GInv (addEdge r1.2 { fromId := lm, toId := r0.1 }) :=
        GInv_addEdge hg1 _ ⟨s.node_counter, hg.1, hkbound, hr0id⟩
      have hlmadd : Rooted (addEdge r1.2 { fromId := lm, toId := r0.1 }) r1.1 :=
        @Rooted_extend r1.2 (addEdge r1.2 { fromId := lm, toId := r0.1 })
          ⟨[], (List.append_nil _).symm⟩
          ⟨[{ fromId := lm, toId := r0.1 }], rfl⟩ r1.1 hroot1
      exact ih _ r1.1 _ hgadd hlmadd
    · rw [if_neg hmain]
      exact ih _ lm r1.2 hg1 hlm1

/-- The statement loop of `create_main_flow` is a well-formed builder
step from its cursor (function definitions are skipped in place). -/
theorem main_flow_loop_StepOK (stmts : List Stmt) (c : String) (s : PState) :
    StepOK c s (main_flow_loop stmts c s) := by
  induction stmts generalizing c s with
  | nil => exact StepOK_refl c s
  | cons stmt rest ih =>
    cases stmt with
    | functionDef name body => exact ih c s
    | ifStmt t b o => exact (process_statement_StepOK _ c s).trans (ih _ _)
    | forStmt t i b => exact (process_statement_StepOK _ c s).trans (ih _ _)
    | whileStmt t b => exact (process_statement_StepOK _ c s).trans (ih _ _)
    | tryStmt b h => exact (process_statement_StepOK _ c s).trans (ih _ _)
    | returnStmt v => exact (process_statement_StepOK _ c s).trans (ih _ _)
    | exprStmt v => exact (process_statement_StepOK _ c s).trans (ih _ _)
    | assign t v => exact (process_statement_StepOK _ c s).trans (ih _ _)
    | otherStmt => exact (process_statement_StepOK _ c s).trans (ih _ _)

/-- One file's flow built without functions satisfies the invariant. -/
theorem create_main_flow_GInv (tree : List Stmt) :
    GInv (create_main_flow tree { node_counter := 0, nodes := [], edges := [] }) := by
  have heq : create_main_flow tree { node_counter := 0, nodes := [], edges := [] } =
      (create_node "Script End" "end"
        (some (main_flow_loop tree
          (create_node "Script Start" "start" none
            { node_counter := 0, nodes := [], edges := [] }).1
          (create_node "Script Start" "start" none
            { node_counter := 0, nodes := [], edges := [] }).2).1)
        (main_flow_loop tree
          (create_node "Script Start" "start" none
            { node_counter := 0, nodes := [], edges := [] }).1
          (create_node "Script Start" "start" none
            { node_counter := 0, nodes := [], edges := [] }).2).2).2 := rfl
  rw [heq]
  obtain ⟨hg0, hroot0⟩ := GInv_after_start "Script Start"
  generalize hr0 : create_node "Script Start" "start" none
      { node_counter := 0, nodes := [], edges := [] } = r0 at hg0 hroot0 ⊢
  have hb := main_flow_loop_StepOK tree r0.1 r0.2
  generalize hr1 : main_flow_loop tree r0.1 r0.2 = r1 at hb ⊢
  obtain ⟨hg1, hroot1⟩ := GInv_step hg0 hroot0 hb
  have hend := create_node_StepOK "Script End" "end" (by decide) r1.1 r1.2
  exact (GInv_step hg1 hroot1 hend).1

/-- State extension by dotted edges only: the counter and nodes are
unchanged and every appended edge is dotted. -/
def ShapeExt (s s' : PState) : Prop :=
  s'.node_counter = s.node_counter ∧ s'.nodes = s.nodes ∧
  ∃ de, s'.edges = s.edges ++ de ∧ ∀ e ∈ de, e.style = some "dotted"

theorem ShapeExt_refl (s : PState) : ShapeExt s s :=
  ⟨rfl, rfl, [], (List.append_nil _).symm, fun e he => absurd he (List.not_mem_nil e)⟩

theorem ShapeExt_trans {s1 s2 s3 : PState} (h1 : ShapeExt s1 s2)
    (h2 : ShapeExt s2 s3) : ShapeExt s1 s3 := by
  obtain ⟨hc1, hn1, de1, he1, hd1⟩ := h1
  obtain ⟨hc2, hn2, de2, he2, hd2⟩ := h2
  refine ⟨hc2.trans hc1, hn2.trans hn1, de1 ++ de2, ?_, ?_⟩
  · rw [he2, he1, List.append_assoc]
  · intro e he
    rcases List.mem_append.mp he with he | he
    · exact hd1 e he
    · exact hd2 e he

/-- The body of `add_function_call_edges`'s outer loop, for one function. -/
def innerStep (d : List (String × String)) (func : PyFunc) (s : PState) : PState :=
  match dLookup d func.name with
  | none => s
  | some from_id =>
    func.calls.foldl
      (fun s call =>
        match dLookup d call with
        | none => s
        | some to_id =>
          addEdge s { fromId := from_id, toId := to_id,
                      label := some "calls", style := some "dotted" })
      s

theorem innerStep_shape (d : List (String × String)) (func : PyFunc)
    (s : PState) : ShapeExt s (innerStep d func s) := by
  cases hdl : dLookup d func.name with
  | none =>
    simp only [innerStep, hdl]
    exact ShapeExt_refl s
  | some from_id =>
    simp only [innerStep, hdl]
    rw [call_edges_inner d from_id func.calls s]
    refine ⟨rfl, rfl, _, rfl, ?_⟩
    intro e he
    rcases List.mem_filterMap.mp he with ⟨call, _, hcall⟩
    rcases Option.map_eq_some'.mp hcall with ⟨to_id, _, rfl⟩
    rfl

/-- The call-graph linker only appends dotted edges. -/
theorem add_function_call_edges_shape (fns : List PyFunc)
    (d : List (String × String)) (s : PState) :
    ShapeExt s (add_function_call_edges fns d s) := by
  induction fns generalizing s with
  | nil => exact ShapeExt_refl s
  | cons func rest ih =>
    have heq : add_function_call_edges (func :: rest) d s =
        add_function_call_edges rest d (innerStep d func s) := rfl
    rw [heq]
    exact ShapeExt_trans (innerStep_shape d func s) (ih (innerStep d func s))

/-- One file's flow built with functions: the state just before the
call-graph linker satisfies the invariant, and the linker extends it by
dotted edges only. -/
theorem create_function_flows_final (tree : List Stmt) (functions : List PyFunc) :
    ∃ s1 : PState, GInv s1 ∧
      ShapeExt s1 (create_function_flows tree functions
        { node_counter := 0, nodes := [], edges := [] }) := by
  have heq : create_function_flows tree functions
      { node_counter := 0, nodes := [], edges := [] } =
      add_function_call_edges functions
        (funcs_loop tree functions []
          (create_node "Program Start" "start" none
            { node_counter := 0, nodes := [], edges := [] }).1
          (create_node "Program Start" "start" none
            { node_counter := 0, nodes := [], edges := [] }).2).1
        (create_node "Program End" "end"
          (some (funcs_loop tree functions []
            (create_node "Program Start" "start" none
              { node_counter := 0, nodes := [], edges := [] }).1
            (create_node "Program Start" "start" none
              { node_counter := 0, nodes := [], edges := [] }).2).2.1)
          (funcs_loop tree functions []
            (create_node "Program Start" "start" none
              { node_counter := 0, nodes := [], edges := [] }).1
            (create_node "Program Start" "start" none
              { node_counter := 0, nodes := [], edges := [] }).2).2.2).2 := rfl
  rw [heq]
  obtain ⟨hg0, hroot0⟩ := GInv_after_start "Program Start"
  generalize hr0 : create_node "Program Start" "start" none
      { node_counter := 0, nodes := [], edges := [] } = r0 at hg0 hroot0 ⊢
  obtain ⟨hg1, hroot1⟩ := funcs_loop_GInv tree functions [] r0.1 r0.2 hg0 hroot0
  generalize hr1 : funcs_loop tree functions [] r0.1 r0.2 = r1 at hg1 hroot1 ⊢
  have hend := create_node_StepOK "Program End" "end" (by decide) r1.2.1 r1.2.2
  obtain ⟨hg2, _⟩ := GInv_step hg1 hroot1 hend
  exact ⟨_, hg2, add_function_call_edges_shape functions r1.1 _⟩

/-- The three graph-level conclusions, read off from the invariant. -/
theorem GInv_final {s : PState} (hg : GInv s) :
    (s.nodes.filter (fun n => n.type == "start")).length = 1 ∧
    (∀ n ∈ s.nodes, n.type = "start" →
      ∀ e ∈ s.edges, e.style ≠ some "dotted" → e.toId ≠ n.id) ∧
    (∀ n ∈ s.nodes, ∃ r ∈ s.nodes, IsRootNode r ∧ Reach s.edges r.id n.id) := by
  obtain ⟨_, hstart, hsid, hroot, hedge⟩ := hg
  refine ⟨hstart, ?_, hroot⟩
  intro n hn hty e he _
  obtain ⟨k, hk1, _, hk3⟩ := hedge e he
  rw [hk3, hsid n hn hty]
  exact mkNodeId_pos_ne_zero k hk1

/-- The three graph-level conclusions survive a dotted-only extension. -/
theorem Final_ext {s s' : PState} (hext : ShapeExt s s')
    (h1 : (s.nodes.filter (fun n => n.type == "start")).length = 1)
    (h2 : ∀ n ∈ s.nodes, n.type = "start" →
      ∀ e ∈ s.edges, e.style ≠ some "dotted" → e.toId ≠ n.id)
    (h3 : ∀ n ∈ s.nodes, ∃ r ∈ s.nodes, IsRootNode r ∧ Reach s.edges r.id n.id) :
    (s'.nodes.filter (fun n => n.type == "start")).length = 1 ∧
    (∀ n ∈ s'.nodes, n.type = "start" →
      ∀ e ∈ s'.edges, e.style ≠ some "dotted" → e.toId ≠ n.id) ∧
    (∀ n ∈ s'.nodes, ∃ r ∈ s'.nodes, IsRootNode r ∧ Reach s'.edges r.id n.id) := by
  obtain ⟨_, hn, de, he, hde⟩ := hext
  refine ⟨by rw [hn]; exact h1, ?_, ?_⟩
  · intro n hnn hty e hee hst
    rw [hn] at hnn
    rw [he] at hee
    rcases List.mem_append.mp hee with hee | hee
    · exact h2 n hnn hty e hee hst
    · exact absurd (hde e hee) hst
  · intro n hnn
    rw [hn] at hnn
    obtain ⟨r, hr, hroot, hre⟩ := h3 n hnn
    exact ⟨r, by rw [hn]; exact hr, hroot, by rw [he]; exact Reach_append de hre⟩

/-- **C1 (counterexample).** The file `def f(): pass` (one function that
is never called) produces the graph with nodes `Program Start`,
`Function: f`, `Program End` and the single edge `node_0 → node_2`: the
start node exists, yet the `Function: f` node is not reachable from it
along solid edges, refuting "every node is reachable from the start
node". -/
theorem c1_counterexample :
    ∃ st ∈ (parse_flow [Stmt.functionDef "f" [Stmt.otherStmt]] "a.py").nodes,
      st.type = "start" ∧
      ∃ n ∈ (parse_flow [Stmt.functionDef "f" [Stmt.otherStmt]] "a.py").nodes,
        ¬ Reach (parse_flow [Stmt.functionDef "f" [Stmt.otherStmt]] "a.py").edges
          st.id n.id := by
  have hg : parse_flow [Stmt.functionDef "f" [Stmt.otherStmt]] "a.py" =
      { nodes := [{ id := "node_0", label := "Program Start", type := "start" },
                  { id := "node_1", label := "Function: f", type := "function" },
                  { id := "node_2", label := "Program End", type := "end" }],
        edges := [{ fromId := "node_0", toId := "node_2" }],
        file_path := "a.py", functions := some ["f"] } := by
    simp [parse_flow, collect_functions, walk, astChildren,
      extract_function_calls, create_function_flows, funcs_loop,
      create_function_body_flow, process_block, process_statement, create_node,
      addEdge, add_function_call_edges, is_main_function_call, dLookup,
      mkNodeId, create_main_flow, main_flow_loop]
    decide
  rw [hg]
  refine ⟨{ id := "node_0", label := "Program Start", type := "start" },
    by decide, rfl,
    { id := "node_1", label := "Function: f", type := "function" },
    by decide, ?_⟩
  intro h
  rcases h.cases_tail with h | ⟨c, _, hstep⟩
  · exact absurd h (by decide)
  · obtain ⟨e, he, _, _, ht⟩ := hstep
    rcases List.mem_singleton.mp he with rfl
    exact absurd ht (by decide)

/-- **C1 (amended).** For every flow graph `parse` builds from a
parseable module, the solid-edge subgraph has exactly one `start`-kind
node; no solid edge targets it (its solid in-degree is 0); and every
node is reachable along solid edges from a root node, where the roots
are the start node together with the function-definition nodes
(`"Function: <name>"`, type `"function"`) — not from the start node
alone, since a function that is never called at module level gets no
incoming edge. -/
theorem c1_start_in_degree_and_rooted_reachability (tree : List Stmt)
    (fp : String) :
    (((parse_flow tree fp).nodes.filter (fun n => n.type == "start")).length
      = 1) ∧
    (∀ n ∈ (parse_flow tree fp).nodes, n.type = "start" →
      ∀ e ∈ (parse_flow tree fp).edges, e.style ≠ some "dotted" →
        e.toId ≠ n.id) ∧
    (∀ n ∈ (parse_flow tree fp).nodes, ∃ r ∈ (parse_flow tree fp).nodes,
      IsRootNode r ∧ Reach (parse_flow tree fp).edges r.id n.id) := by
  cases hfe : (collect_functions tree).isEmpty with
  | true =>
    have hnodes : (parse_flow tree fp).nodes =
        (create_main_flow tree { node_counter := 0, nodes := [], edges := [] }).nodes := by
      simp [parse_flow, hfe]
    have hedges : (parse_flow tree fp).edges =
        (create_main_flow tree { node_counter := 0, nodes := [], edges := [] }).edges := by
      simp [parse_flow, hfe]
    rw [hnodes, hedges]
    exact GInv_final (create_main_flow_GInv tree)
  | false =>
    have hnodes : (parse_flow tree fp).nodes =
        (create_function_flows tree (collect_functions tree)
          { node_counter := 0, nodes := [], edges := [] }).nodes := by
      simp [parse_flow, hfe]
    have hedges : (parse_flow tree fp).edges =
        (create_function_flows tree (collect_functions tree)
          { node_counter := 0, nodes := [], edges := [] }).edges := by
      simp [parse_flow, hfe]
    rw [hnodes, hedges]
    obtain ⟨s1, hg, hext⟩ :=
      create_function_flows_final tree (collect_functions tree)
    obtain ⟨h1, h2, h3⟩ := GInv_final hg
    exact Final_ext hext h1 h2 h3

end CodeFlow
